import Mathlib

/-!
# Verification of the AI grounding core of loan-picks-dash

This file gives a shallow embedding, in Lean 4, of the AI chat core of the
repository: the grounded prompt builder, the simulated AI responder, the
response safety gate (`src/lib/ai.ts`), the LLM transport dispatch, and the
`POST /api/ai/ask` route handler (`src/app/api/ai/ask/route.ts`), together
with theorems about their behaviour.

Text is modelled as `List Char`.  JavaScript specifics that the code relies
on are modelled explicitly: ASCII case folding for the `i` regex flag, the
`\b` word-boundary class, value truthiness (`0`, `''`, `undefined` are
falsy), `String.prototype.trim`, and `Number.prototype.toLocaleString` with
the `en-IN` locale on integral values.
-/

set_option linter.unusedVariables false

namespace LoanPicks

/-- The character list of a string literal. -/
def str (s : String) : List Char := s.data

/-! ### Line structure of the prompt -/

/-- Case-sensitive prefix test. -/
def startsWithL : List Char → List Char → Bool
  | [], _ => true
  | _ :: _, [] => false
  | a :: as, b :: bs => a == b && startsWithL as bs

/-- First occurrence index of `needle` in `hay` (case-sensitive). -/
def firstIdxSubAux (needle : List Char) : List Char → Nat → Option Nat
  | [], i => if startsWithL needle [] then some i else none
  | c :: t, i =>
    if startsWithL needle (c :: t) then some i
    else firstIdxSubAux needle t (i + 1)

/-- First occurrence index of `needle` in `hay`. -/
def firstIdxSub (needle hay : List Char) : Option Nat := firstIdxSubAux needle hay 0

/-- Number of positions of `hay` at which `needle` occurs. -/
def countSub (needle : List Char) : List Char → Nat
  | [] => if startsWithL needle [] then 1 else 0
  | c :: t => (if startsWithL needle (c :: t) then 1 else 0) + countSub needle t

/-- Split a text into its lines at `\n` (the splitting that renders a
string as lines; a trailing newline yields a final empty line). -/
def splitNL : List Char → List (List Char)
  | [] => [[]]
  | c :: t => if c = '\n' then [] :: splitNL t else (splitNL t).modifyHead (c :: ·)

/-- Join lines with `\n`: the left inverse of `splitNL` on newline-free
lines. -/
def joinNL : List (List Char) → List Char
  | [] => []
  | [l] => l
  | l :: ls => l ++ '\n' :: joinNL ls

/-- Remove trailing empty lines. -/
def dropTrailEmpty (L : List (List Char)) : List (List Char) :=
  (L.reverse.dropWhile List.isEmpty).reverse


/-- ASCII lower-casing on code points: 65-90 (`A`-`Z`) map to 97-122
(`a`-`z`).  This is the canonicalisation performed by the `i` flag of the
JavaScript regular expressions in `validateAIResponse` (the denylist is pure
ASCII) and by `toLowerCase` in `simulateAIResponse`. -/
def lowN (n : Nat) : Nat := if 65 ≤ n ∧ n ≤ 90 then n + 32 else n

/-- Case-folded code point of a character. -/
def lowC (c : Char) : Nat := lowN c.toNat

/-- Case-insensitive character comparison (ASCII case folding). -/
def lowEq (a b : Char) : Bool := lowC a == lowC b

/-- JavaScript regex word character (the class used by `\b`): ASCII letters,
digits and underscore. -/
def isWordN (n : Nat) : Bool :=
  decide ((65 ≤ n ∧ n ≤ 90) ∨ (97 ≤ n ∧ n ≤ 122) ∨ (48 ≤ n ∧ n ≤ 57) ∨ n = 95)

/-- Word-character test on characters. -/
def isWordC (c : Char) : Bool := isWordN c.toNat

/-- `ciStartsWith p t`: `t` begins with `p`, compared case-insensitively. -/
def ciStartsWith : List Char → List Char → Bool
  | [], _ => true
  | _ :: _, [] => false
  | p :: ps, c :: cs => lowEq c p && ciStartsWith ps cs

/-- Character class of position `i` of `text` for `\b` purposes: `true` when
a word character sits there, `false` off either end of the text. -/
def wordAt (text : List Char) (i : Nat) : Bool :=
  match text[i]? with
  | some c => isWordC c
  | none => false

/-- JavaScript regex `\b`: a word boundary sits immediately before position
`i` iff exactly one of the two surrounding positions holds a word
character. -/
def boundaryAt (text : List Char) (i : Nat) : Bool :=
  (if i = 0 then false else wordAt text (i - 1)) != wordAt text i

/-- The regex `/\b<phrase>\b/i` matches `text` with the occurrence anchored
at position `i`. -/
def matchBAt (phrase text : List Char) (i : Nat) : Bool :=
  boundaryAt text i && ciStartsWith phrase (text.drop i) &&
    boundaryAt text (i + phrase.length)

/-- `/\b<phrase>\b/i.test(text)`: the pattern matches at some position. -/
def testWB (phrase text : List Char) : Bool :=
  (List.range (text.length + 1)).any (fun i => matchBAt phrase text i)

/-! ### The Response Gate: `validateAIResponse` (src/lib/ai.ts, lines 243-264) -/

/-- The four denylisted phrases of `validateAIResponse`; each is wrapped in
`\b ... \b` and tested with the `i` flag in the source. -/
def suspiciousPatterns : List (List Char) :=
  [str "guaranteed approval", str "100% approval",
   str "no credit check", str "instant approval"]

/-- Result shape `{ valid: boolean; reason?: string }`. -/
structure ValidationResult where
  valid : Bool
  reason : Option (List Char)
deriving DecidableEq

/-- The reason string returned for any matching pattern. -/
def suspiciousReason : List Char :=
  str "Response contains suspicious claims not in product data"

/-- `validateAIResponse` (src/lib/ai.ts, lines 243-264).  The source returns
on the first matching pattern of the list; since the reason string is the
same for every pattern, this equals testing whether any pattern matches. -/
def validateAIResponse (response : List Char) : ValidationResult :=
  if suspiciousPatterns.any (fun p => testWB p response) then
    ⟨false, some suspiciousReason⟩
  else
    ⟨true, none⟩

/-! ### Specification-level matching notions -/

/-- `phrase` occurs in `text` as a plain case-insensitive substring — the
matching policy asserted by the specification for the Response Gate. -/
def OccursCI (phrase text : List Char) : Prop :=
  ∃ pre mid post, text = pre ++ mid ++ post ∧ mid.map lowC = phrase.map lowC

/-- The flanking character (if any) is not a word character. -/
def nonWordEdge : Option Char → Bool
  | some c => !isWordC c
  | none => true

/-- `phrase` occurs in `text` as a case-insensitive substring that is neither
immediately preceded nor immediately followed by an ASCII letter, digit or
underscore — i.e. a `\b`-delimited occurrence. -/
def OccursWB (phrase text : List Char) : Prop :=
  ∃ pre mid post, text = pre ++ mid ++ post ∧ mid.map lowC = phrase.map lowC ∧
    nonWordEdge pre.getLast? = true ∧ nonWordEdge post.head? = true

/-- A phrase suitable for `\b`-delimited matching: nonempty, and its first
and last characters are word characters.  All four denylisted phrases
qualify. -/
def wordEnds (p : List Char) : Bool :=
  !p.isEmpty && isWordC (p.headD 'x') && isWordC (p.getLastD 'x')

/-! ### Gate lemmas -/

theorem isWordN_lowN (n : Nat) : isWordN (lowN n) = isWordN n := by
  unfold lowN
  split
  · simp only [isWordN, decide_eq_decide]
    omega
  · rfl

theorem isWordC_of_lowC_eq {a b : Char} (h : lowC a = lowC b) :
    isWordC a = isWordC b := by
  unfold isWordC
  rw [← isWordN_lowN a.toNat, ← isWordN_lowN b.toNat]
  unfold lowC at h
  rw [h]

theorem ciStartsWith_iff {p t : List Char} :
    ciStartsWith p t = true ↔
      ∃ mid post, t = mid ++ post ∧ mid.map lowC = p.map lowC := by
  induction p generalizing t with
  | nil =>
    simp only [ciStartsWith, List.map_nil, true_iff]
    exact ⟨[], t, rfl, rfl⟩
  | cons ph ps ih =>
    cases t with
    | nil =>
      apply iff_of_false (by simp [ciStartsWith])
      rintro ⟨mid, post, heq, hmap⟩
      rcases List.append_eq_nil.mp heq.symm with ⟨h1, -⟩
      subst h1
      simp at hmap
    | cons c cs =>
      simp only [ciStartsWith, Bool.and_eq_true, ih, List.map_cons]
      constructor
      · rintro ⟨hc, mid, post, heq, hmap⟩
        refine ⟨c :: mid, post, by rw [heq]; rfl, ?_⟩
        have hcc : lowC c = lowC ph := by simpa [lowEq] using hc
        simp only [List.map_cons, hmap, hcc]
      · rintro ⟨mid, post, heq, hmap⟩
        cases mid with
        | nil => simp at hmap
        | cons m ms =>
          simp only [List.cons_append, List.cons.injEq] at heq
          rcases heq with ⟨hm, hcs⟩
          subst hm
          simp only [List.map_cons, List.cons.injEq] at hmap
          rcases hmap with ⟨hc, hms⟩
          exact ⟨by simp [lowEq, hc], ms, post, hcs, hms⟩

theorem map_lowC_getLast {xs ys : List Char} (hmap : xs.map lowC = ys.map lowC) :
    Option.map lowC xs.getLast? = Option.map lowC ys.getLast? := by
  rw [← List.getLast?_map, ← List.getLast?_map, hmap]

theorem wordAt_eq_some {text : List Char} {i : Nat} {c : Char}
    (h : text[i]? = some c) : wordAt text i = isWordC c := by
  unfold wordAt
  rw [h]

theorem wordAt_eq_none {text : List Char} {i : Nat}
    (h : text[i]? = none) : wordAt text i = false := by
  unfold wordAt
  rw [h]

theorem mid_head_word {m a : Char} {ms ps : List Char}
    (hmap : (m :: ms).map lowC = (a :: ps).map lowC) (ha : isWordC a = true) :
    isWordC m = true := by
  have h : lowC m = lowC a := by
    have := congrArg List.head? hmap
    simpa using this
  rw [isWordC_of_lowC_eq h]
  exact ha

theorem mid_last_word {m a : Char} {ms ps : List Char}
    (hmap : (m :: ms).map lowC = (a :: ps).map lowC)
    (hlast : ∀ b, (a :: ps).getLast? = some b → isWordC b = true) :
    ∃ b, (m :: ms).getLast? = some b ∧ isWordC b = true := by
  obtain ⟨b, hb⟩ : ∃ b, (m :: ms).getLast? = some b := by
    cases hgl : (m :: ms).getLast? with
    | none => exact absurd (List.getLast?_eq_none_iff.mp hgl) (by simp)
    | some b => exact ⟨b, rfl⟩
  obtain ⟨b2, hb2⟩ : ∃ b2, (a :: ps).getLast? = some b2 := by
    cases hgl : (a :: ps).getLast? with
    | none => exact absurd (List.getLast?_eq_none_iff.mp hgl) (by simp)
    | some b2 => exact ⟨b2, rfl⟩
  have h := map_lowC_getLast hmap
  rw [hb, hb2] at h
  simp only [Option.map_some', Option.some.injEq] at h
  exact ⟨b, hb, by rw [isWordC_of_lowC_eq h]; exact hlast b2 hb2⟩

theorem getElem?_decomp_mid_last {pre post text ms : List Char} {m : Char}
    (htext : text = pre ++ (m :: ms) ++ post) :
    text[pre.length + ms.length]? = (m :: ms).getLast? := by
  subst htext
  rw [List.getElem?_append,
    if_pos (by rw [List.length_append, List.length_cons]; omega)]
  rw [List.getElem?_append_right (by omega)]
  have hidx : pre.length + ms.length - pre.length = ms.length := by omega
  rw [hidx, List.getLast?_eq_getElem?]
  congr 1

theorem getElem?_decomp_post_head {pre mid post text : List Char}
    (htext : text = pre ++ mid ++ post) :
    text[pre.length + mid.length]? = post.head? := by
  subst htext
  rw [List.getElem?_append_right (le_of_eq (List.length_append pre mid))]
  rw [List.length_append, Nat.sub_self, ← List.head?_eq_getElem?]

theorem nonWordEdge_iff_wordAt_post {text pre mid post : List Char}
    (htext : text = pre ++ mid ++ post) :
    nonWordEdge post.head? = true ↔
      wordAt text (pre.length + mid.length) = false := by
  have h := getElem?_decomp_post_head htext
  cases hph : post.head? with
  | none =>
    rw [hph] at h
    simp [nonWordEdge, wordAt_eq_none h]
  | some c =>
    rw [hph] at h
    rw [wordAt_eq_some h]
    cases hc : isWordC c <;> simp [nonWordEdge, hc]

theorem boundaryAfter_decomp {text pre post ms ps : List Char} {m a : Char}
    (htext : text = pre ++ (m :: ms) ++ post)
    (hmap : (m :: ms).map lowC = (a :: ps).map lowC)
    (hlast : ∀ b, (a :: ps).getLast? = some b → isWordC b = true) :
    boundaryAt text (pre.length + (ps.length + 1)) =
      !(wordAt text (pre.length + (ps.length + 1))) := by
  obtain ⟨b, hb, hwb⟩ := mid_last_word hmap hlast
  have hms : ms.length = ps.length := by
    have := congrArg List.length hmap
    simpa using this
  have h1 : text[pre.length + ps.length]? = some b := by
    rw [← hms, getElem?_decomp_mid_last htext, hb]
  unfold boundaryAt
  rw [if_neg (by omega)]
  have hidx : pre.length + (ps.length + 1) - 1 = pre.length + ps.length := by
    omega
  rw [hidx, wordAt_eq_some h1, hwb]
  cases wordAt text (pre.length + (ps.length + 1)) <;> rfl

theorem boundaryBefore_iff {text pre post ms ps : List Char} {m a : Char}
    (htext : text = pre ++ (m :: ms) ++ post)
    (hmap : (m :: ms).map lowC = (a :: ps).map lowC)
    (hheadw : isWordC a = true) :
    boundaryAt text pre.length = true ↔ nonWordEdge pre.getLast? = true := by
  subst htext
  have hgeti : (pre ++ (m :: ms) ++ post)[pre.length]? = some m := by
    rw [← List.head?_drop, List.append_assoc, List.drop_left]
    rfl
  have hwAti : wordAt (pre ++ (m :: ms) ++ post) pre.length = true := by
    rw [wordAt_eq_some hgeti]
    exact mid_head_word hmap hheadw
  unfold boundaryAt
  rw [hwAti]
  rcases hpre : pre.getLast? with _ | c
  · have hnil : pre = [] := List.getLast?_eq_none_iff.mp hpre
    subst hnil
    simp [nonWordEdge]
  · have hne : pre ≠ [] := by
      intro h0
      subst h0
      simp at hpre
    have hlen : pre.length ≠ 0 := fun h0 => hne (List.length_eq_zero.mp h0)
    rw [if_neg hlen]
    have hgl : (pre ++ (m :: ms) ++ post)[pre.length - 1]? = some c := by
      rw [List.getElem?_append,
        if_pos (by rw [List.length_append, List.length_cons]; omega)]
      rw [List.getElem?_append, if_pos (by omega)]
      rw [← List.getLast?_eq_getElem?]
      exact hpre
    rw [wordAt_eq_some hgl]
    cases hc : isWordC c <;> simp [nonWordEdge, hc]

theorem testWB_iff {p text : List Char} (hp : wordEnds p = true) :
    testWB p text = true ↔ OccursWB p text := by
  obtain ⟨a, ps, rfl⟩ : ∃ a ps, p = a :: ps := by
    cases p with
    | nil => simp [wordEnds] at hp
    | cons a ps => exact ⟨a, ps, rfl⟩
  simp only [wordEnds, Bool.and_eq_true] at hp
  have hhead : isWordC a = true := by
    have := hp.1.2
    simpa [List.headD] using this
  have hlast : ∀ b, (a :: ps).getLast? = some b → isWordC b = true := by
    intro b hb
    have := hp.2
    rwa [List.getLastD_eq_getLast?, hb] at this
  constructor
  · intro h
    rcases List.any_eq_true.mp h with ⟨i, hi, hm⟩
    rw [List.mem_range] at hi
    have hile : i ≤ text.length := Nat.lt_succ_iff.mp hi
    simp only [matchBAt, Bool.and_eq_true] at hm
    obtain ⟨⟨hb1, hcs⟩, hb2⟩ := hm
    rcases ciStartsWith_iff.mp hcs with ⟨mid, post, hdrop, hmap⟩
    have hmidlen : mid.length = ps.length + 1 := by
      have := congrArg List.length hmap
      simpa using this
    obtain ⟨m, ms, rfl⟩ : ∃ m ms, mid = m :: ms := by
      cases mid with
      | nil => simp at hmidlen
      | cons m ms => exact ⟨m, ms, rfl⟩
    have htext : text = text.take i ++ (m :: ms) ++ post := by
      conv_lhs => rw [← List.take_append_drop i text, hdrop]
      rw [List.append_assoc]
    have hprelen : (text.take i).length = i := by
      rw [List.length_take]
      exact Nat.min_eq_left hile
    refine ⟨text.take i, m :: ms, post, htext, hmap, ?_, ?_⟩
    · rw [← (boundaryBefore_iff htext hmap hhead)]
      rwa [hprelen]
    · rw [nonWordEdge_iff_wordAt_post htext]
      rw [← hprelen] at hb2
      simp only [List.length_cons] at hb2
      have hmid2 : (m :: ms).length = ps.length + 1 := hmidlen
      rw [boundaryAfter_decomp htext hmap hlast] at hb2
      rw [hmid2]
      cases hw : wordAt text ((text.take i).length + (ps.length + 1)) with
      | false => rfl
      | true => rw [hw] at hb2; simp at hb2
  · rintro ⟨pre, mid, post, htext, hmap, hpre, hpost⟩
    have hmidlen : mid.length = ps.length + 1 := by
      have := congrArg List.length hmap
      simpa using this
    obtain ⟨m, ms, rfl⟩ : ∃ m ms, mid = m :: ms := by
      cases mid with
      | nil => simp at hmidlen
      | cons m ms => exact ⟨m, ms, rfl⟩
    apply List.any_eq_true.mpr
    refine ⟨pre.length, ?_, ?_⟩
    · rw [List.mem_range]
      have := congrArg List.length htext
      simp only [List.length_append, List.length_cons] at this
      omega
    · simp only [matchBAt, Bool.and_eq_true]
      refine ⟨⟨?_, ?_⟩, ?_⟩
      · exact (boundaryBefore_iff htext hmap hhead).mpr hpre
      · have hdrop : text.drop pre.length = (m :: ms) ++ post := by
          rw [htext, List.append_assoc, List.drop_left]
        rw [hdrop]
        exact ciStartsWith_iff.mpr ⟨m :: ms, post, rfl, hmap⟩
      · simp only [List.length_cons]
        rw [boundaryAfter_decomp htext hmap hlast]
        have hw := (nonWordEdge_iff_wordAt_post htext).mp hpost
        simp only [List.length_cons, hmidlen] at hw
        rw [hw]
        rfl

/-! ### C1: the Response Gate -/

theorem gate_any_iff (response : List Char) :
    (suspiciousPatterns.any (fun p => testWB p response) = true) ↔
      ∃ p ∈ suspiciousPatterns, OccursWB p response := by
  rw [List.any_eq_true]
  constructor
  · rintro ⟨p, hp, ht⟩
    have hwe : wordEnds p = true := by fin_cases hp <;> decide
    exact ⟨p, hp, (testWB_iff hwe).mp ht⟩
  · rintro ⟨p, hp, hocc⟩
    have hwe : wordEnds p = true := by fin_cases hp <;> decide
    exact ⟨p, hp, (testWB_iff hwe).mpr hocc⟩

/-- C1, counterexample: the Response Gate does NOT implement plain
case-insensitive substring matching.  The text "Your guaranteed approvals
await" contains the denylisted phrase "guaranteed approval" as a
case-insensitive substring, yet `validateAIResponse` reports it valid with
no reason, because the source wraps each phrase in `\b ... \b` and the
occurrence is immediately followed by the word character `s`. -/
theorem gate_not_plain_substring :
    OccursCI (str "guaranteed approval") (str "Your guaranteed approvals await") ∧
    validateAIResponse (str "Your guaranteed approvals await") = ⟨true, none⟩ := by
  constructor
  · exact ⟨str "Your ", str "guaranteed approval", str "s await", by decide, by decide⟩
  · decide

/-- C1, amended: `validateAIResponse` returns invalid together with the fixed
reason string if and only if the reply text contains one of the four
denylisted phrases as a case-insensitive substring that is neither
immediately preceded nor immediately followed by an ASCII letter, digit or
underscore (a `\b`-delimited occurrence); otherwise it returns valid with no
reason. -/
theorem gate_word_boundary_spec (response : List Char) :
    ((validateAIResponse response).valid = false ↔
      ∃ p ∈ suspiciousPatterns, OccursWB p response) ∧
    ((validateAIResponse response).valid = false →
      (validateAIResponse response).reason = some suspiciousReason) ∧
    ((validateAIResponse response).valid = true →
      (validateAIResponse response).reason = none) := by
  by_cases h : suspiciousPatterns.any (fun p => testWB p response) = true
  · have hv : validateAIResponse response = ⟨false, some suspiciousReason⟩ := by
      unfold validateAIResponse
      rw [if_pos h]
    rw [hv]
    exact ⟨iff_of_true rfl ((gate_any_iff response).mp h),
      fun _ => rfl, fun hc => nomatch hc⟩
  · have hv : validateAIResponse response = ⟨true, none⟩ := by
      unfold validateAIResponse
      rw [if_neg h]
    rw [hv]
    refine ⟨iff_of_false ?_ (fun hocc => h ((gate_any_iff response).mpr hocc)),
      ?_, fun _ => rfl⟩
    · intro hc
      simp at hc
    · intro hc
      simp at hc

/-- C1, witness: the amended gate property applied at a concrete input that
contains "NO CREDIT CHECK" as a `\b`-delimited occurrence. -/
theorem gate_word_boundary_spec_witness :
    (validateAIResponse (str "This loan has NO CREDIT CHECK at all")).valid = false :=
  (gate_word_boundary_spec (str "This loan has NO CREDIT CHECK at all")).1.mpr
    ⟨str "no credit check", by decide,
     str "This loan has ", str "NO CREDIT CHECK", str " at all",
     by decide, by decide, by decide, by decide⟩

/-! ### JavaScript numbers and their rendering -/

/-- Decimal digit character. -/
def digitChar (d : Nat) : Char :=
  match d with
  | 0 => '0' | 1 => '1' | 2 => '2' | 3 => '3' | 4 => '4'
  | 5 => '5' | 6 => '6' | 7 => '7' | 8 => '8' | 9 => '9'
  | _ => '*'

/-- Decimal digits, most significant first; `fuel` bounds the recursion
depth so that the definition is structurally recursive and computes by
kernel reduction. -/
def natStrAux : Nat → Nat → List Char
  | 0, _ => []
  | fuel + 1, n =>
    if n < 10 then [digitChar n]
    else natStrAux fuel (n / 10) ++ [digitChar (n % 10)]

/-- Decimal digits of a natural number, most significant first: what the
template interpolation of a nonnegative integral number produces.
(`n + 1` units of fuel always suffice: a number has at most `n + 1`
digits.) -/
def natStr (n : Nat) : List Char := natStrAux (n + 1) n

/-- Template rendering of an integral JavaScript number. -/
def intStr (i : Int) : List Char :=
  if i < 0 then '-' :: natStr i.natAbs else natStr i.toNat

/-- A JavaScript number with a finite decimal expansion: the value
`m / 10 ^ e`.  Every numeric literal the source compares against (9.5, 2)
and the decimal rate/fee values it renders are of this form; on such
numbers JavaScript float comparison and default string rendering agree
with exact decimal semantics. -/
structure Dec where
  m : Int
  e : Nat
deriving DecidableEq

/-- Numeric comparison `a <= b` by cross multiplication. -/
def Dec.leB (a b : Dec) : Bool :=
  decide (a.m * (10 : Int) ^ b.e ≤ b.m * (10 : Int) ^ a.e)

/-- Numeric comparison `a < b` by cross multiplication. -/
def Dec.ltB (a b : Dec) : Bool :=
  decide (a.m * (10 : Int) ^ b.e < b.m * (10 : Int) ^ a.e)

/-- Strip trailing decimal zeros so that rendering matches JavaScript's
shortest-form output (`8.90` renders as `8.9`). -/
def Dec.normAux : Int → Nat → Dec
  | m, 0 => ⟨m, 0⟩
  | m, e + 1 => if m % 10 = 0 then Dec.normAux (m / 10) e else ⟨m, e + 1⟩

/-- Normalised form of a decimal number. -/
def Dec.norm (d : Dec) : Dec := Dec.normAux d.m d.e

/-- Left-pad a digit string with zeros to width `w`. -/
def padZeros (w : Nat) (ds : List Char) : List Char :=
  List.replicate (w - ds.length) '0' ++ ds

/-- JavaScript default string rendering of a finite decimal number. -/
def Dec.render (d : Dec) : List Char :=
  let n := d.norm
  if n.e = 0 then intStr n.m
  else
    (if n.m < 0 then ['-'] else []) ++
      natStr (n.m.natAbs / 10 ^ n.e) ++ ['.'] ++
      padZeros n.e (natStr (n.m.natAbs % 10 ^ n.e))

/-- The argument of `formatCurrencyINR`: a JavaScript
`number | null | undefined` restricted to integral numbers plus `NaN`
(minimum-income figures are integers: the Zod schema validates them with
`z.number().int()`). -/
inductive NumOpt where
  | null
  | undef
  | nan
  | int (n : Int)
deriving DecidableEq

/-- Group a reversed digit list in the `en-IN` pattern: after the first
(rightmost) group of three, groups of two. -/
def chunksTwo : List Char → List (List Char)
  | [] => []
  | [a] => [[a]]
  | a :: b :: rest => [a, b] :: chunksTwo rest

/-- Join chunks with a separator (`Array.prototype.join`). -/
def joinSep (sep : List Char) : List (List Char) → List Char
  | [] => []
  | [x] => x
  | x :: xs => x ++ sep ++ joinSep sep xs

/-- `n.toLocaleString('en-IN')` for a natural number: decimal digits with
a comma before the last three, then before every further two. -/
def natLocaleEnIN (n : Nat) : List Char :=
  (joinSep [',']
    (((natStr n).reverse.take 3) :: chunksTwo ((natStr n).reverse.drop 3))).reverse

/-- `toLocaleString('en-IN')` of an integral JavaScript number. -/
def intLocaleEnIN (i : Int) : List Char :=
  if i < 0 then '-' :: natLocaleEnIN i.natAbs else natLocaleEnIN i.toNat

/-- `formatCurrencyINR` (src/lib/ai.ts, lines 9-18): `null`, `undefined`
and `NaN` render as the sentinel "Not specified"; a number is rendered
with the rupee glyph and `en-IN` grouping.  (The `try/catch` of the source
is dead: `toLocaleString` does not throw on these inputs.) -/
def formatCurrencyINR : NumOpt → List Char
  | .null => str "Not specified"
  | .undef => str "Not specified"
  | .nan => str "Not specified"
  | .int n => str "₹" ++ intLocaleEnIN n

/-! ### The data model (src/types/index.ts) -/

/-- The `LoanType` string union. -/
inductive LoanType where
  | personal | education | vehicle | home | credit_line | debt_consolidation
deriving DecidableEq

/-- The string a `LoanType` value interpolates as. -/
def LoanType.render : LoanType → List Char
  | .personal => str "personal"
  | .education => str "education"
  | .vehicle => str "vehicle"
  | .home => str "home"
  | .credit_line => str "credit_line"
  | .debt_consolidation => str "debt_consolidation"

/-- An FAQ entry `{ q, a }`. -/
structure ProductFaq where
  q : List Char
  a : List Char
deriving DecidableEq

/-- The `Product` record, restricted to the fields the AI core reads.
Optional fields are `Option`s (`none` = absent/`undefined`); numeric terms
follow the Zod schema: integral credit score and tenure bounds, decimal
APR and processing fee, and a minimum income of whatever shape
`formatCurrencyINR` accepts. -/
structure Product where
  name : List Char
  bank : List Char
  type : LoanType
  rate_apr : Dec
  min_income : NumOpt
  min_credit_score : Int
  tenure_min_months : Int
  tenure_max_months : Int
  processing_fee_pct : Option Dec := none
  prepayment_allowed : Option Bool := none
  disbursal_speed : Option (List Char) := none
  docs_level : Option (List Char) := none
  summary : Option (List Char) := none
  faq : Option (List ProductFaq) := none
deriving DecidableEq

/-- JavaScript truthiness of an optional number: `undefined` and `0` are
falsy. -/
def truthyNum : Option Dec → Bool
  | none => false
  | some d => !(d.m == 0)

/-- JavaScript truthiness of an optional string: `undefined` and the empty
string are falsy. -/
def truthyStr : Option (List Char) → Bool
  | none => false
  | some s => !s.isEmpty

/-- `product.faq && product.faq.length > 0` (an empty array is truthy in
JavaScript, so only the length check matters when the list exists). -/
def faqPresent : Option (List ProductFaq) → Bool
  | none => false
  | some l => decide (l.length > 0)

/-- Chat roles. -/
inductive Role where
  | user
  | assistant
deriving DecidableEq

/-- `role.toUpperCase()`. -/
def Role.upper : Role → List Char
  | .user => str "USER"
  | .assistant => str "ASSISTANT"

/-- A conversation turn. -/
structure Turn where
  role : Role
  content : List Char
deriving DecidableEq

/-! ### The Prompt Builder: `buildGroundedPrompt` (src/lib/ai.ts, 29-85) -/

/-- One FAQ entry as rendered by the `.map` callback (lines 52-55): a
leading blank line, then the numbered question and answer lines. -/
def faqEntryStr (i : Nat) (f : ProductFaq) : List Char :=
  str "\nQ" ++ natStr (i + 1) ++ str ": " ++ f.q ++
    str "\nA" ++ natStr (i + 1) ++ str ": " ++ f.a ++ str "\n"

/-- The FAQ block (lines 50-55): empty unless at least one entry exists. -/
def faqBlock (faq : Option (List ProductFaq)) : List Char :=
  if faqPresent faq then
    str "\nFREQUENTLY ASKED QUESTIONS:\n" ++
      ((faq.getD []).enum.map (fun x => faqEntryStr x.1 x.2)).flatten
  else []

/-- Line 44: rendered only when `processing_fee_pct` is truthy (defined and
nonzero). -/
def feeLine (p : Product) : List Char :=
  if truthyNum p.processing_fee_pct then
    str "- Processing Fee: " ++ (p.processing_fee_pct.getD ⟨0, 0⟩).render ++ str "%"
  else []

/-- Line 45: rendered whenever `prepayment_allowed !== undefined`. -/
def prepayLine (p : Product) : List Char :=
  if p.prepayment_allowed.isSome then
    str "- Prepayment Penalty: " ++
      (if p.prepayment_allowed.getD false then str "Yes" else str "No")
  else []

/-- Line 46: rendered only when `disbursal_speed` is truthy. -/
def disbursalLine (p : Product) : List Char :=
  if truthyStr p.disbursal_speed then
    str "- Disbursal Speed: " ++ p.disbursal_speed.getD []
  else []

/-- Line 47: rendered only when `docs_level` is truthy. -/
def docsLine (p : Product) : List Char :=
  if truthyStr p.docs_level then
    str "- Documentation Level: " ++ p.docs_level.getD []
  else []

/-- Line 48: rendered only when `summary` is truthy. -/
def summaryLine (p : Product) : List Char :=
  if truthyStr p.summary then str "- Summary: " ++ p.summary.getD []
  else []

/-- ASCII fragment of the whitespace class trimmed by
`String.prototype.trim` (the template itself only produces newlines and
spaces at the ends). -/
def isJSWS (c : Char) : Bool :=
  c == ' ' || c == '\n' || c == '\t' || c == '\r'

/-- Drop leading whitespace. -/
def dropLeadWS (s : List Char) : List Char := s.dropWhile isJSWS

/-- Drop trailing whitespace. -/
def dropTrailWS (s : List Char) : List Char :=
  (s.reverse.dropWhile isJSWS).reverse

/-- `String.prototype.trim`. -/
def trimWS (s : List Char) : List Char := dropTrailWS (dropLeadWS s)

/-- The untrimmed `productContext` template literal (lines 35-56), chunk
for chunk. -/
def productContextRaw (p : Product) : List Char :=
  str "\nPRODUCT INFORMATION:\n- Product Name: " ++ p.name ++
  str "\n- Bank: " ++ p.bank ++
  str "\n- Loan Type: " ++ p.type.render ++
  str "\n- Interest Rate (APR): " ++ p.rate_apr.render ++
  str "%\n- Minimum Income Required: " ++ formatCurrencyINR p.min_income ++
  str " per month\n- Minimum Credit Score: " ++ intStr p.min_credit_score ++
  str "\n- Tenure Range: " ++ intStr p.tenure_min_months ++
  str " to " ++ intStr p.tenure_max_months ++ str " months\n" ++
  feeLine p ++ str "\n" ++ prepayLine p ++ str "\n" ++ disbursalLine p ++
  str "\n" ++ docsLine p ++ str "\n" ++ summaryLine p ++ str "\n\n" ++
  faqBlock p.faq ++ str "\n"

/-- `productContext` (line 56): the raw template, trimmed. -/
def productContext (p : Product) : List Char := trimWS (productContextRaw p)

/-- One transcript line `ROLE: content`. -/
def turnLine (t : Turn) : List Char := t.role.upper ++ str ": " ++ t.content

/-- `historyContext` (lines 59-64). -/
def historyContext (history : List Turn) : List Char :=
  if history.length > 0 then
    str "\nPREVIOUS CONVERSATION:\n" ++
      joinNL (history.map turnLine) ++ str "\n"
  else []

/-- The opening sentence of the system prompt (line 67). -/
def promptIntro (p : Product) : List Char :=
  str "You are a helpful loan advisor assistant. You are helping a customer understand the \"" ++
    p.name ++ str "\" loan product from " ++ p.bank ++ str ".\n\n"

/-- The fixed five-rule instruction block (lines 69-74); rule 2 embeds the
product's APR. -/
def rulesBlock (p : Product) : List Char :=
  str "CRITICAL RULES:\n1. Answer ONLY using the product information provided above\n2. When referencing specific data, cite the field name (e.g., \"The APR is " ++
    p.rate_apr.render ++
    str "% as stated in our product details\")\n3. If the user asks about information NOT in the product data, respond with: \"I don't have that specific information in our product database. However, I can help you with [list available topics] or connect you with our support team for detailed assistance.\"\n4. Be conversational but accurate\n5. If you're unsure, acknowledge it rather than guessing"

/-- The closing directive (line 82). -/
def closingDirective : List Char :=
  str "Provide a helpful, accurate response based ONLY on the information above:"

/-- `buildGroundedPrompt` (src/lib/ai.ts, lines 29-85): the system prompt
assembled, in source order, from the intro sentence, the five CRITICAL
RULES, the trimmed product context, the history context, the user
question and the closing directive. -/
def buildGroundedPrompt (p : Product) (userMessage : List Char)
    (history : List Turn) : List Char :=
  promptIntro p ++ rulesBlock p ++ str "\n\n" ++ productContext p ++
    str "\n\n" ++ historyContext history ++ str "\n\nUSER QUESTION: " ++
    userMessage ++ str "\n\n" ++ closingDirective

/-! ### `simulateAIResponse` (src/lib/ai.ts, lines 93-153) -/

/-- `message.toLowerCase().includes(needle)` for a lowercase ASCII needle:
case-insensitive containment. -/
def icontains (hay needle : List Char) : Bool :=
  (List.range (hay.length + 1)).any (fun i => ciStartsWith needle (hay.drop i))

/-- `simulateAIResponse`: keyword dispatch over the lower-cased user
message, producing a reply from product fields only. -/
def simulateAIResponse (p : Product) (userMessage : List Char) : List Char :=
  if icontains userMessage (str "apr") || icontains userMessage (str "interest") ||
      icontains userMessage (str "rate") then
    str "The " ++ p.name ++ str " has an annual percentage rate (APR) of " ++
      p.rate_apr.render ++ str "%. " ++
      (if p.rate_apr.leB ⟨95, 1⟩ then
        str "This is considered a competitive low rate in the current market."
      else str "This rate is standard for this type of loan.")
  else if icontains userMessage (str "eligible") || icontains userMessage (str "qualify") ||
      icontains userMessage (str "requirement") then
    str "To qualify for the " ++ p.name ++ str ", you need:\n- Minimum credit score: " ++
      intStr p.min_credit_score ++ str "\n- Minimum monthly income: " ++
      formatCurrencyINR p.min_income ++ str "\n- The loan tenure ranges from " ++
      intStr p.tenure_min_months ++ str " to " ++ intStr p.tenure_max_months ++
      str " months."
  else if icontains userMessage (str "prepayment") || icontains userMessage (str "penalty") ||
      icontains userMessage (str "early") then
    if p.prepayment_allowed == some false then
      str "Great news! The " ++ p.name ++
        str " does NOT have any prepayment penalties. You can pay off your loan early without any extra charges, which can save you money on interest."
    else
      str "The " ++ p.name ++ str " allows prepayment. I'd recommend checking with " ++
        p.bank ++ str " directly about any applicable prepayment charges or conditions."
  else if icontains userMessage (str "disbursal") || icontains userMessage (str "fast") ||
      icontains userMessage (str "quick") || icontains userMessage (str "how long") then
    if p.disbursal_speed == some (str "fast") then
      str "The " ++ p.name ++
        str " offers fast disbursal, typically within 24-48 hours after your application is approved. This is great if you need funds urgently."
    else
      str "The " ++ p.name ++
        str " typically disburses funds within 3-5 business days after approval. The exact timeline may vary based on documentation verification."
  else if icontains userMessage (str "document") || icontains userMessage (str "docs") ||
      icontains userMessage (str "paperwork") then
    str "For the " ++ p.name ++
      str ", you'll need standard documentation including:\n- Identity proof (Aadhaar, PAN card)\n- Income proof (salary slips, bank statements)\n- Address proof\n" ++
      (if truthyStr p.docs_level then
        str "The documentation requirement level is " ++ p.docs_level.getD [] ++ str "."
      else [])
  else if icontains userMessage (str "fee") || icontains userMessage (str "charge") ||
      icontains userMessage (str "cost") then
    if truthyNum p.processing_fee_pct then
      str "The " ++ p.name ++ str " has a processing fee of " ++
        (p.processing_fee_pct.getD ⟨0, 0⟩).render ++
        str "% of the loan amount. " ++
        (if (p.processing_fee_pct.getD ⟨0, 0⟩).ltB ⟨2, 0⟩ then
          str "This is a relatively low processing fee compared to the market average."
        else [])
    else
      str "I don't have specific information about processing fees in our product database. Please contact " ++
        p.bank ++ str " directly for detailed fee structure information."
  else if icontains userMessage (str "tenure") || icontains userMessage (str "term") ||
      icontains userMessage (str "duration") then
    str "The " ++ p.name ++ str " offers flexible tenure options ranging from " ++
      intStr p.tenure_min_months ++ str " months (" ++
      intStr (Int.fdiv p.tenure_min_months 12) ++ str " years) to " ++
      intStr p.tenure_max_months ++ str " months (" ++
      intStr (Int.fdiv p.tenure_max_months 12) ++
      str " years). You can choose a tenure that fits your repayment capacity."
  else
    str "I don't have specific information about that in our product database. However, I can help you with details about the " ++
      p.name ++ str "'s:\n- Interest rate (" ++ p.rate_apr.render ++
      str "% APR)\n- Eligibility criteria (credit score: " ++ intStr p.min_credit_score ++
      str ", income: " ++ formatCurrencyINR p.min_income ++
      str ")\n- Tenure options (" ++ intStr p.tenure_min_months ++ str "-" ++
      intStr p.tenure_max_months ++ str " months)\n- Prepayment terms" ++
      (if truthyStr p.disbursal_speed then str "\n- Disbursal timeline" else []) ++
      str "\n\nWhat would you like to know about these aspects?"

/-! ### `callLLMAPI` (src/lib/ai.ts, lines 160-236) -/

/-- LLM provider kind. -/
inductive LLMProvider where
  | openai
  | gemini
deriving DecidableEq

/-- A dispatched HTTP request: the provider contacted, the prompt sent and
the credential used (endpoint and payload shapes abstracted away). -/
structure LLMRequest where
  provider : LLMProvider
  prompt : List Char
  key : List Char
deriving DecidableEq

/-- The observable part of a provider response: `response.ok`, the numeric
status, the error body, and the extracted reply text
(`choices[0].message.content` resp. `candidates[0].content.parts[0].text`)
when present and a string. -/
structure LLMHttpResponse where
  ok : Bool
  status : Nat
  errorText : List Char
  content : Option (List Char)

/-- Environment configuration: the two credentials
(`none` = variable undefined). -/
structure LLMEnv where
  openai_api_key : Option (List Char)
  gemini_api_key : Option (List Char)

/-- Truthiness of a credential: `undefined` and the empty string are
falsy. -/
def truthyKey : Option (List Char) → Bool
  | none => false
  | some s => !s.isEmpty

/-- Handling of the OpenAI response (lines 187-197): non-OK statuses and
missing/empty extracted text are errors. -/
def openaiResult (r : LLMHttpResponse) : Except (List Char) (List Char) :=
  if !r.ok then
    .error (str "OpenAI API error: " ++ natStr r.status ++ str " " ++ r.errorText)
  else
    match r.content with
    | some t =>
      if t.isEmpty then .error (str "OpenAI API returned an unexpected response shape.")
      else .ok t
    | none => .error (str "OpenAI API returned an unexpected response shape.")

/-- Handling of the Gemini response (lines 224-235). -/
def geminiResult (r : LLMHttpResponse) : Except (List Char) (List Char) :=
  if !r.ok then
    .error (str "Gemini API error: " ++ natStr r.status ++ str " " ++ r.errorText)
  else
    match r.content with
    | some t =>
      if t.isEmpty then .error (str "Gemini API returned an unexpected response shape.")
      else .ok t
    | none => .error (str "Gemini API returned an unexpected response shape.")

/-- `callLLMAPI`, with the `fetch` transport supplied as an oracle.
Returns the list of network requests attempted together with the result:
a configuration error before any request when neither credential is
truthy; otherwise a single request to OpenAI when its key is truthy, else
a single request to Gemini. -/
def callLLMAPI (env : LLMEnv) (transport : LLMRequest → LLMHttpResponse)
    (prompt : List Char) : List LLMRequest × Except (List Char) (List Char) :=
  if !truthyKey env.openai_api_key && !truthyKey env.gemini_api_key then
    ([], .error (str "LLM API not configured. Set OPENAI_API_KEY or GEMINI_API_KEY."))
  else if truthyKey env.openai_api_key then
    ([⟨.openai, prompt, env.openai_api_key.getD []⟩],
      openaiResult (transport ⟨.openai, prompt, env.openai_api_key.getD []⟩))
  else
    ([⟨.gemini, prompt, env.gemini_api_key.getD []⟩],
      geminiResult (transport ⟨.gemini, prompt, env.gemini_api_key.getD []⟩))

/-! ### The route handler: `POST /api/ai/ask` (src/app/api/ai/ask/route.ts) -/

/-- Outcome of a `saveChatMessage` call: resolves or throws. -/
inductive SaveOutcome where
  | ok
  | fail
deriving DecidableEq

/-- A persisted chat row (the fields the handler passes to
`saveChatMessage`, minus the timestamp and user id). -/
structure SavedMessage where
  product_id : List Char
  role : Role
  content : List Char
deriving DecidableEq

/-- A request body that already passed `AIAskSchema` validation (the route
rejects malformed bodies with a 400 before any of the modelled logic
runs).  The optional `history` field is part of the schema. -/
structure AskRequest where
  productId : List Char
  message : List Char
  history : Option (List Turn)

/-- The handler's collaborators: the session user, the product store, and
the outcomes of the two `saveChatMessage` calls. -/
structure AskDeps where
  sessionUserId : Option (List Char)
  lookup : List Char → Option Product
  saveUser : SaveOutcome
  saveAssistant : SaveOutcome

/-- Shape of the JSON response of the route. -/
structure ApiResponse where
  status : Nat
  success : Bool
  message : Option (List Char)
  error : Option (List Char)
deriving DecidableEq

/-- What the handler did: the HTTP response, the rows actually persisted,
and the LLM transport requests issued (none: line 80 of the route calls
`simulateAIResponse`, never `callLLMAPI`). -/
structure AskResult where
  response : ApiResponse
  saved : List SavedMessage
  llmRequests : List LLMRequest
deriving DecidableEq

/-- The fixed safe fallback sentence (route.ts, line 95). -/
def askFallback : List Char :=
  str "I apologize, but I couldn't generate a reliable answer. Please rephrase your question or ask about specific product details like interest rate, eligibility criteria, or tenure options."

/-- `POST /api/ai/ask` (route.ts, lines 30-160) on a validated body, as a
pure function of the request and its collaborators.  The `try/catch`
around the two `saveChatMessage` calls swallows failures — a failing first
save skips the second — and never alters the HTTP response. -/
def postAiAsk (req : AskRequest) (deps : AskDeps) : AskResult :=
  match deps.sessionUserId with
  | none => ⟨⟨401, false, none, some (str "Unauthorized")⟩, [], []⟩
  | some _ =>
    match deps.lookup req.productId with
    | none => ⟨⟨404, false, none, some (str "Product not found")⟩, [], []⟩
    | some product =>
      let aiResponse := simulateAIResponse product req.message
      if !(validateAIResponse aiResponse).valid then
        ⟨⟨200, true, some askFallback, none⟩, [], []⟩
      else
        ⟨⟨200, true, some aiResponse, none⟩,
          (match deps.saveUser with
          | .fail => []
          | .ok =>
            match deps.saveAssistant with
            | .fail => [⟨req.productId, .user, req.message⟩]
            | .ok => [⟨req.productId, .user, req.message⟩,
                      ⟨req.productId, .assistant, aiResponse⟩]),
          []⟩

/-! ### Concrete fixtures used by witnesses and counterexamples -/

/-- A fully-populated sample product. -/
def sampleProduct : Product where
  name := str "Alpha Personal Loan"
  bank := str "Axis Bank"
  type := .personal
  rate_apr := ⟨89, 1⟩
  min_income := .int 25000
  min_credit_score := 700
  tenure_min_months := 12
  tenure_max_months := 60
  processing_fee_pct := some ⟨15, 1⟩
  prepayment_allowed := some false
  disbursal_speed := some (str "fast")
  docs_level := some (str "minimal")
  summary := some (str "A quick personal loan.")
  faq := some [⟨str "Can I prepay?", str "Yes, without charges."⟩,
               ⟨str "Max amount?", str "Ten lakh."⟩]

/-- A product whose name makes `simulateAIResponse` emit a reply that the
Response Gate rejects. -/
def trippingProduct : Product where
  name := str "Instant Approval Xpress"
  bank := str "Z Bank"
  type := .personal
  rate_apr := ⟨12, 0⟩
  min_income := .int 10000
  min_credit_score := 650
  tenure_min_months := 6
  tenure_max_months := 24

/-- A transport oracle that always succeeds. -/
def transportStub : LLMRequest → LLMHttpResponse :=
  fun _ => ⟨true, 200, [], some (str "All good.")⟩

/-! ### C6: determinism of the Prompt Builder -/

/-- C6: `buildGroundedPrompt` is referentially transparent — two
invocations on identical product, question and history inputs yield the
same output string.  (The embedding is a pure function because the source
function is: it reads no clock, randomness or global state.) -/
theorem buildGroundedPrompt_deterministic (p₁ p₂ : Product)
    (q₁ q₂ : List Char) (h₁ h₂ : List Turn)
    (hp : p₁ = p₂) (hq : q₁ = q₂) (hh : h₁ = h₂) :
    buildGroundedPrompt p₁ q₁ h₁ = buildGroundedPrompt p₂ q₂ h₂ := by
  rw [hp, hq, hh]

/-- C6, witness: determinism at a concrete input. -/
theorem buildGroundedPrompt_deterministic_witness :
    buildGroundedPrompt sampleProduct (str "What is the rate?") [] =
      buildGroundedPrompt sampleProduct (str "What is the rate?") [] :=
  buildGroundedPrompt_deterministic sampleProduct sampleProduct
    (str "What is the rate?") (str "What is the rate?") [] [] rfl rfl rfl

/-! ### C7: LLM credential dispatch -/

/-- C7: with neither credential truthy, `callLLMAPI` fails immediately
with the configuration error and performs no network request; with the
OpenAI credential truthy (in particular when both are configured) the one
request goes to OpenAI; with only the Gemini credential truthy the one
request goes to Gemini. -/
theorem callLLMAPI_dispatch (env : LLMEnv)
    (transport : LLMRequest → LLMHttpResponse) (prompt : List Char) :
    (truthyKey env.openai_api_key = false → truthyKey env.gemini_api_key = false →
      callLLMAPI env transport prompt =
        ([], .error (str "LLM API not configured. Set OPENAI_API_KEY or GEMINI_API_KEY."))) ∧
    (truthyKey env.openai_api_key = true →
      (callLLMAPI env transport prompt).1.map LLMRequest.provider = [.openai]) ∧
    (truthyKey env.openai_api_key = false → truthyKey env.gemini_api_key = true →
      (callLLMAPI env transport prompt).1.map LLMRequest.provider = [.gemini]) := by
  refine ⟨?_, ?_, ?_⟩
  · intro h1 h2
    simp [callLLMAPI, h1, h2]
  · intro h1
    simp [callLLMAPI, h1]
  · intro h1 h2
    simp [callLLMAPI, h1, h2]

/-- C7, witness: the dispatch property at concrete environments. -/
theorem callLLMAPI_dispatch_witness :
    callLLMAPI ⟨none, none⟩ transportStub (str "prompt") =
      ([], .error (str "LLM API not configured. Set OPENAI_API_KEY or GEMINI_API_KEY.")) ∧
    (callLLMAPI ⟨some (str "sk-1"), some (str "gm-2")⟩ transportStub
        (str "prompt")).1.map LLMRequest.provider = [.openai] :=
  ⟨(callLLMAPI_dispatch ⟨none, none⟩ transportStub (str "prompt")).1 rfl rfl,
   (callLLMAPI_dispatch ⟨some (str "sk-1"), some (str "gm-2")⟩ transportStub
      (str "prompt")).2.1 (by decide)⟩

/-! ### C8: gate failure substitutes the fixed fallback -/

set_option maxRecDepth 4000 in
/-- C8: whenever the Response Gate judges the generated reply invalid, the
handler answers with status 200 and the fixed safe-fallback sentence, and
the invalid generated text itself is not what is returned. -/
theorem postAiAsk_gate_fallback (req : AskRequest) (deps : AskDeps)
    (uid : List Char) (p : Product)
    (hs : deps.sessionUserId = some uid)
    (hp : deps.lookup req.productId = some p)
    (hg : (validateAIResponse (simulateAIResponse p req.message)).valid = false) :
    (postAiAsk req deps).response = ⟨200, true, some askFallback, none⟩ ∧
    (postAiAsk req deps).response.message ≠
      some (simulateAIResponse p req.message) := by
  have hres : postAiAsk req deps = ⟨⟨200, true, some askFallback, none⟩, [], []⟩ := by
    unfold postAiAsk
    rw [hs, hp]
    simp only [hg, Bool.not_false, if_true]
  refine ⟨by rw [hres], ?_⟩
  rw [hres]
  intro h
  have heq : askFallback = simulateAIResponse p req.message := Option.some.inj h
  have hvalid : (validateAIResponse askFallback).valid = true := by decide
  rw [heq] at hvalid
  rw [hvalid] at hg
  exact Bool.noConfusion hg

set_option maxRecDepth 4000 in
/-- C8, witness: a product named "Instant Approval Xpress" makes the
simulated reply contain a denylisted phrase; the handler returns the
fallback. -/
theorem postAiAsk_gate_fallback_witness :
    (postAiAsk ⟨str "p1", str "What is the rate?", none⟩
        ⟨some (str "u1"), fun _ => some trippingProduct, .ok, .ok⟩).response =
      ⟨200, true, some askFallback, none⟩ :=
  (postAiAsk_gate_fallback ⟨str "p1", str "What is the rate?", none⟩
    ⟨some (str "u1"), fun _ => some trippingProduct, .ok, .ok⟩
    (str "u1") trippingProduct rfl rfl (by decide)).1

/-! ### C9: persistence failure never changes the response -/

/-- C9: the HTTP response of the handler does not depend on the outcomes
of the two `saveChatMessage` calls, and whenever the session and product
resolve, the handler replies 200 with some reply text. -/
theorem postAiAsk_persistence_nonfatal (req : AskRequest) (uid : List Char)
    (lookup : List Char → Option Product) (s1 s2 s1' s2' : SaveOutcome) :
    (postAiAsk req ⟨some uid, lookup, s1, s2⟩).response =
      (postAiAsk req ⟨some uid, lookup, s1', s2'⟩).response ∧
    (∀ p, lookup req.productId = some p →
      ∃ reply, (postAiAsk req ⟨some uid, lookup, s1, s2⟩).response =
        ⟨200, true, some reply, none⟩) := by
  constructor
  · unfold postAiAsk
    dsimp only
    cases lookup req.productId with
    | none => rfl
    | some p =>
      dsimp only
      split <;> rfl
  · intro p hl
    unfold postAiAsk
    dsimp only
    rw [hl]
    dsimp only
    split
    · exact ⟨askFallback, rfl⟩
    · exact ⟨simulateAIResponse p req.message, rfl⟩

/-- C9, witness: failing saves and succeeding saves produce the same
response, and the reply is returned with success status. -/
theorem postAiAsk_persistence_nonfatal_witness :
    ((postAiAsk ⟨str "p1", str "What is the rate?", none⟩
        ⟨some (str "u1"), fun _ => some sampleProduct, .fail, .fail⟩).response =
      (postAiAsk ⟨str "p1", str "What is the rate?", none⟩
        ⟨some (str "u1"), fun _ => some sampleProduct, .ok, .ok⟩).response) ∧
    ∃ reply, (postAiAsk ⟨str "p1", str "What is the rate?", none⟩
        ⟨some (str "u1"), fun _ => some sampleProduct, .fail, .fail⟩).response =
      ⟨200, true, some reply, none⟩ :=
  ⟨(postAiAsk_persistence_nonfatal ⟨str "p1", str "What is the rate?", none⟩
      (str "u1") (fun _ => some sampleProduct) .fail .fail .ok .ok).1,
   (postAiAsk_persistence_nonfatal ⟨str "p1", str "What is the rate?", none⟩
      (str "u1") (fun _ => some sampleProduct) .fail .fail .ok .ok).2
      sampleProduct rfl⟩

/-! ### C10: the history field has no effect; no LLM call -/

/-- C10: the handler's entire behaviour is unchanged when only the
`history` field of the validated request differs; it issues no LLM
transport request; and on the successful gate-valid path the reply is
exactly `simulateAIResponse` of the product and message. -/
theorem postAiAsk_history_independent (pid msg : List Char)
    (h₁ h₂ : Option (List Turn)) (deps : AskDeps) :
    postAiAsk ⟨pid, msg, h₁⟩ deps = postAiAsk ⟨pid, msg, h₂⟩ deps ∧
    (postAiAsk ⟨pid, msg, h₁⟩ deps).llmRequests = [] ∧
    (∀ uid p, deps.sessionUserId = some uid → deps.lookup pid = some p →
      (validateAIResponse (simulateAIResponse p msg)).valid = true →
      (postAiAsk ⟨pid, msg, h₁⟩ deps).response.message =
        some (simulateAIResponse p msg)) := by
  obtain ⟨su, lk, s1, s2⟩ := deps
  refine ⟨rfl, ?_, ?_⟩
  · unfold postAiAsk
    dsimp only
    cases su with
    | none => rfl
    | some u =>
      dsimp only
      cases lk pid with
      | none => rfl
      | some p =>
        dsimp only
        split <;> rfl
  · intro uid p hs hp hv
    dsimp only at hs hp
    unfold postAiAsk
    dsimp only
    rw [hs]
    dsimp only
    rw [hp]
    dsimp only
    simp [hv]

set_option maxRecDepth 8000 in
/-- C10, witness: two requests differing only in history yield identical
results, and the gate-valid reply equals the simulated response. -/
theorem postAiAsk_history_independent_witness :
    (postAiAsk ⟨str "p1", str "What is the rate?", none⟩
        ⟨some (str "u1"), fun _ => some sampleProduct, .ok, .ok⟩ =
      postAiAsk ⟨str "p1", str "What is the rate?", some [⟨.user, str "earlier"⟩]⟩
        ⟨some (str "u1"), fun _ => some sampleProduct, .ok, .ok⟩) ∧
    (postAiAsk ⟨str "p1", str "What is the rate?", none⟩
        ⟨some (str "u1"), fun _ => some sampleProduct, .ok, .ok⟩).response.message =
      some (simulateAIResponse sampleProduct (str "What is the rate?")) :=
  ⟨(postAiAsk_history_independent (str "p1") (str "What is the rate?")
      none (some [⟨.user, str "earlier"⟩])
      ⟨some (str "u1"), fun _ => some sampleProduct, .ok, .ok⟩).1,
   (postAiAsk_history_independent (str "p1") (str "What is the rate?")
      none (some [⟨.user, str "earlier"⟩])
      ⟨some (str "u1"), fun _ => some sampleProduct, .ok, .ok⟩).2.2
      (str "u1") sampleProduct rfl rfl (by decide)⟩

/-! ### Trim lemmas -/

theorem dropLeadWS_cons_nonws {c : Char} (hc : isJSWS c = false) (t : List Char) :
    dropLeadWS (c :: t) = c :: t := by
  unfold dropLeadWS
  rw [List.dropWhile_cons, if_neg (by simp [hc])]

theorem dropLeadWS_cons_ws {c : Char} (hc : isJSWS c = true) (t : List Char) :
    dropLeadWS (c :: t) = dropLeadWS t := by
  unfold dropLeadWS
  rw [List.dropWhile_cons, if_pos hc]

theorem dropTrailWS_append {a b : List Char} (h : dropTrailWS b ≠ []) :
    dropTrailWS (a ++ b) = a ++ dropTrailWS b := by
  unfold dropTrailWS at *
  rw [List.reverse_append, List.dropWhile_append]
  split
  · rename_i hcase
    exact absurd (by rw [List.isEmpty_iff.mp hcase]; rfl) h
  · rw [List.reverse_append, List.reverse_reverse]

theorem dropTrailWS_ne_nil {s : List Char} {c : Char} (hc : c ∈ s)
    (hw : isJSWS c = false) : dropTrailWS s ≠ [] := by
  unfold dropTrailWS
  intro h
  have h2 : s.reverse.dropWhile isJSWS = [] :=
    List.reverse_eq_nil_iff.mp (by simpa using congrArg List.reverse h)
  have h3 := List.dropWhile_eq_nil_iff.mp h2
  exact absurd (h3 c (List.mem_reverse.mpr hc)) (by simp [hw])

/-- `s = dropTrailWS s ++ w` with `w` entirely whitespace. -/
theorem dropTrailWS_decomp (s : List Char) :
    ∃ w, s = dropTrailWS s ++ w ∧ ∀ c ∈ w, isJSWS c = true := by
  refine ⟨(s.reverse.takeWhile isJSWS).reverse, ?_, ?_⟩
  · unfold dropTrailWS
    rw [← List.reverse_append, List.takeWhile_append_dropWhile, List.reverse_reverse]
  · intro c hcw
    rw [List.mem_reverse] at hcw
    exact List.mem_takeWhile_imp hcw

/-! ### C4: the minimum-income line -/

/-- The raw product context after the income line. -/
def afterIncome (p : Product) : List Char :=
  str "\n- Minimum Credit Score: " ++
  (intStr p.min_credit_score ++
  (str "\n- Tenure Range: " ++
  (intStr p.tenure_min_months ++
  (str " to " ++
  (intStr p.tenure_max_months ++
  (str " months\n" ++
  (feeLine p ++
  (str "\n" ++
  (prepayLine p ++
  (str "\n" ++
  (disbursalLine p ++
  (str "\n" ++
  (docsLine p ++
  (str "\n" ++
  (summaryLine p ++
  (str "\n\n" ++
  (faqBlock p.faq ++ str "\n")))))))))))))))))

/-- The trimmed product context before the income line. -/
def beforeIncome (p : Product) : List Char :=
  str "PRODUCT INFORMATION:\n- Product Name: " ++ p.name ++ str "\n- Bank: " ++
    p.bank ++ str "\n- Loan Type: " ++ p.type.render ++
    str "\n- Interest Rate (APR): " ++ p.rate_apr.render ++ str "%\n"

theorem dropLeadWS_beforeIncome (p : Product) (x : List Char) :
    dropLeadWS (beforeIncome p ++ x) = beforeIncome p ++ x := by
  unfold beforeIncome
  exact dropLeadWS_cons_nonws (by decide) _

/-- The product context always carries the income line, flanked by the
fixed head and the trimmed tail. -/
theorem productContext_income_decomp (p : Product) :
    productContext p =
      beforeIncome p ++ (str "- Minimum Income Required: " ++
        (formatCurrencyINR p.min_income ++ str " per month")) ++
        dropTrailWS (afterIncome p) := by
  have h0 : productContextRaw p =
      '\n' :: (beforeIncome p ++ ((str "- Minimum Income Required: " ++
        (formatCurrencyINR p.min_income ++ str " per month")) ++ afterIncome p)) := by
    unfold productContextRaw beforeIncome afterIncome
    rw [show str "\nPRODUCT INFORMATION:\n- Product Name: " =
      '\n' :: str "PRODUCT INFORMATION:\n- Product Name: " from rfl]
    rw [show str "%\n- Minimum Income Required: " =
      str "%\n" ++ str "- Minimum Income Required: " from rfl]
    rw [show str " per month\n- Minimum Credit Score: " =
      str " per month" ++ str "\n- Minimum Credit Score: " from rfl]
    simp [List.append_assoc]
  unfold productContext trimWS
  rw [h0, dropLeadWS_cons_ws (by decide), dropLeadWS_beforeIncome]
  rw [← List.append_assoc]
  have hne : dropTrailWS (afterIncome p) ≠ [] :=
    dropTrailWS_ne_nil (c := 'M')
      (show 'M' ∈ afterIncome p from List.mem_append.mpr (Or.inl (by decide)))
      (by decide)
  rw [dropTrailWS_append hne]

/-- C4: the "Minimum Income Required" line is always rendered.  When the
minimum-income figure is `null`, `undefined` or `NaN`, it shows the
literal sentinel "Not specified"; when the figure is a number, it shows
the rupee glyph followed by the `en-IN`-grouped digits. -/
theorem income_line_rendering (p : Product) (q : List Char) (h : List Turn) :
    ((p.min_income = .null ∨ p.min_income = .undef ∨ p.min_income = .nan) →
      ∃ a b, buildGroundedPrompt p q h =
        a ++ str "- Minimum Income Required: Not specified per month" ++ b) ∧
    (∀ n, p.min_income = .int n →
      ∃ a b, buildGroundedPrompt p q h =
        a ++ (str "- Minimum Income Required: ₹" ++ (intLocaleEnIN n ++
          str " per month")) ++ b) := by
  have hdec := productContext_income_decomp p
  constructor
  · intro hmi
    refine ⟨promptIntro p ++ rulesBlock p ++ str "\n\n" ++ beforeIncome p,
      dropTrailWS (afterIncome p) ++ (str "\n\n" ++ historyContext h ++
        str "\n\nUSER QUESTION: " ++ q ++ str "\n\n" ++ closingDirective), ?_⟩
    have hfmt : formatCurrencyINR p.min_income = str "Not specified" := by
      rcases hmi with h1 | h1 | h1 <;> rw [h1] <;> rfl
    unfold buildGroundedPrompt
    rw [hdec, hfmt]
    rw [show str "- Minimum Income Required: Not specified per month" =
      str "- Minimum Income Required: " ++ (str "Not specified" ++ str " per month")
      from rfl]
    simp [List.append_assoc]
  · intro n hn
    refine ⟨promptIntro p ++ rulesBlock p ++ str "\n\n" ++ beforeIncome p,
      dropTrailWS (afterIncome p) ++ (str "\n\n" ++ historyContext h ++
        str "\n\nUSER QUESTION: " ++ q ++ str "\n\n" ++ closingDirective), ?_⟩
    have hfmt : formatCurrencyINR p.min_income = str "₹" ++ intLocaleEnIN n := by
      rw [hn]
      rfl
    unfold buildGroundedPrompt
    rw [hdec, hfmt]
    rw [show str "- Minimum Income Required: ₹" =
      str "- Minimum Income Required: " ++ str "₹" from rfl]
    simp [List.append_assoc]

/-- C4, witness: the sentinel at a null income and the grouped digits at a
numeric income. -/
theorem income_line_rendering_witness :
    (∃ a b, buildGroundedPrompt { sampleProduct with min_income := .null }
        (str "hi") [] =
      a ++ str "- Minimum Income Required: Not specified per month" ++ b) ∧
    (∃ a b, buildGroundedPrompt sampleProduct (str "hi") [] =
      a ++ (str "- Minimum Income Required: ₹" ++ (intLocaleEnIN 25000 ++
        str " per month")) ++ b) :=
  ⟨(income_line_rendering { sampleProduct with min_income := .null }
      (str "hi") []).1 (Or.inl rfl),
   (income_line_rendering sampleProduct (str "hi") []).2 25000 rfl⟩

/-! ### Line-structure lemmas -/

theorem splitNL_ne_nil (s : List Char) : splitNL s ≠ [] := by
  induction s with
  | nil => simp [splitNL]
  | cons c t ih =>
    unfold splitNL
    split
    · simp
    · cases hsp : splitNL t with
      | nil => exact absurd hsp ih
      | cons a as => simp [List.modifyHead]

theorem splitNL_cons_nl (t : List Char) : splitNL ('\n' :: t) = [] :: splitNL t := by
  simp [splitNL]

theorem splitNL_cons_other {c : Char} (hc : c ≠ '\n') (t : List Char) :
    splitNL (c :: t) = (splitNL t).modifyHead (c :: ·) := by
  simp [splitNL, hc]

theorem splitNL_nlfree {a : List Char} (h : '\n' ∉ a) : splitNL a = [a] := by
  induction a with
  | nil => rfl
  | cons c t ih =>
    have hc : c ≠ '\n' := fun hcc => h (by rw [← hcc] at *; exact List.mem_cons_self c t)
    rw [splitNL_cons_other hc, ih (fun hm => h (List.mem_cons_of_mem c hm))]
    rfl

theorem splitNL_line_cons {a : List Char} (b : List Char) (h : '\n' ∉ a) :
    splitNL (a ++ '\n' :: b) = a :: splitNL b := by
  induction a with
  | nil =>
    simp only [List.nil_append]
    exact splitNL_cons_nl b
  | cons c t ih =>
    have hc : c ≠ '\n' := fun hcc => h (by rw [← hcc] at *; exact List.mem_cons_self c t)
    have ht : '\n' ∉ t := fun hm => h (List.mem_cons_of_mem c hm)
    simp only [List.cons_append]
    rw [splitNL_cons_other hc, ih ht]
    rfl

theorem joinNL_cons₂ (a b : List Char) (t : List (List Char)) :
    joinNL (a :: b :: t) = a ++ '\n' :: joinNL (b :: t) := rfl

theorem joinNL_append {L₂ : List (List Char)} (h₂ : L₂ ≠ []) (L₁ : List (List Char))
    (h₁ : L₁ ≠ []) :
    joinNL (L₁ ++ L₂) = joinNL L₁ ++ '\n' :: joinNL L₂ := by
  induction L₁ with
  | nil => exact absurd rfl h₁
  | cons a t ih =>
    cases t with
    | nil =>
      cases L₂ with
      | nil => exact absurd rfl h₂
      | cons b t₂ => rfl
    | cons a₂ t' =>
      simp only [List.cons_append]
      rw [joinNL_cons₂, joinNL_cons₂]
      rw [← List.cons_append a₂ t' L₂, ih (by simp)]
      simp [List.append_assoc]

theorem splitNL_joinNL {L : List (List Char)} (hne : L ≠ [])
    (h : ∀ l ∈ L, '\n' ∉ l) : splitNL (joinNL L) = L := by
  induction L with
  | nil => exact absurd rfl hne
  | cons a t ih =>
    cases t with
    | nil => exact splitNL_nlfree (h a (List.mem_cons_self a []))
    | cons b t' =>
      rw [joinNL_cons₂, splitNL_line_cons _ (h a (List.mem_cons_self _ _))]
      rw [ih (by simp) (fun l hl => h l (List.mem_cons_of_mem a hl))]
      

theorem dropTrailEmpty_decomp (L : List (List Char)) :
    ∃ w, L = dropTrailEmpty L ++ w ∧ ∀ l ∈ w, l = [] := by
  refine ⟨(L.reverse.takeWhile List.isEmpty).reverse, ?_, ?_⟩
  · unfold dropTrailEmpty
    rw [← List.reverse_append, List.takeWhile_append_dropWhile, List.reverse_reverse]
  · intro l hl
    rw [List.mem_reverse] at hl
    exact List.isEmpty_iff.mp (List.mem_takeWhile_imp hl)

theorem dropTrailEmpty_append_empty (L : List (List Char)) :
    dropTrailEmpty (L ++ [[]]) = dropTrailEmpty L := by
  unfold dropTrailEmpty
  rw [List.reverse_append]
  simp [List.dropWhile_cons]

theorem dropTrailEmpty_append_ne (L : List (List Char)) {a : List Char}
    (ha : a ≠ []) : dropTrailEmpty (L ++ [a]) = L ++ [a] := by
  unfold dropTrailEmpty
  rw [List.reverse_append]
  have hemp : a.isEmpty = false := by
    cases a with
    | nil => exact absurd rfl ha
    | cons x xs => rfl
  simp [List.dropWhile_cons, hemp]

/-! ### Newline-freeness and clean-tail predicates -/

/-- `s` contains no newline. -/
abbrev NLFree (s : List Char) : Prop := '\n' ∉ s

/-- The last character of `s`, if any, is not whitespace. -/
def NoTrailWS (s : List Char) : Prop :=
  ∀ c, s.getLast? = some c → isJSWS c = false

theorem NLFree_append {a b : List Char} (ha : NLFree a) (hb : NLFree b) :
    NLFree (a ++ b) := by
  intro hm
  rcases List.mem_append.mp hm with hm | hm
  · exact ha hm
  · exact hb hm

theorem NLFree_cons {c : Char} (hc : c ≠ '\n') {t : List Char} (ht : NLFree t) :
    NLFree (c :: t) := by
  intro hm
  rcases List.mem_cons.mp hm with hm | hm
  · exact hc hm.symm
  · exact ht hm

theorem digitChar_ne_nl (d : Nat) : digitChar d ≠ '\n' := by
  unfold digitChar
  split <;> decide

theorem NLFree_natStrAux (fuel n : Nat) : NLFree (natStrAux fuel n) := by
  induction fuel generalizing n with
  | zero => simp [natStrAux, NLFree]
  | succ f ih =>
    unfold natStrAux
    split
    · intro hm
      rcases List.mem_singleton.mp hm with h
      exact digitChar_ne_nl n h.symm
    · exact NLFree_append (ih (n / 10))
        (fun hm => digitChar_ne_nl (n % 10) (List.mem_singleton.mp hm).symm)

theorem NLFree_natStr (n : Nat) : NLFree (natStr n) := NLFree_natStrAux (n + 1) n

theorem NLFree_intStr (i : Int) : NLFree (intStr i) := by
  unfold intStr
  split
  · exact NLFree_cons (by decide) (NLFree_natStr _)
  · exact NLFree_natStr _

theorem chunksTwo_mem : ∀ (l x : List Char), x ∈ chunksTwo l → ∀ c ∈ x, c ∈ l
  | [], x, hx => by simp [chunksTwo] at hx
  | [a], x, hx => by
    simp only [chunksTwo, List.mem_singleton] at hx
    subst hx
    intro c hc
    simpa using hc
  | a :: b :: rest, x, hx => by
    intro c hc
    simp only [chunksTwo, List.mem_cons] at hx
    rcases hx with rfl | hx
    · rcases List.mem_cons.mp hc with rfl | hc2
      · simp
      · rcases List.mem_singleton.mp hc2 with rfl
        simp
    · have := chunksTwo_mem rest x hx c hc
      simp only [List.mem_cons]
      tauto

theorem NLFree_joinSep {sep : List Char} (hsep : NLFree sep) :
    ∀ L : List (List Char), (∀ l ∈ L, NLFree l) → NLFree (joinSep sep L)
  | [], _ => by simp [joinSep, NLFree]
  | [x], h => by simpa [joinSep] using h x (by simp)
  | x :: y :: t, h => by
    have h1 := h x (by simp)
    have h2 := NLFree_joinSep hsep (y :: t)
      (fun l hl => h l (List.mem_cons_of_mem x hl))
    exact NLFree_append (NLFree_append h1 hsep) h2

theorem NLFree_natLocaleEnIN (n : Nat) : NLFree (natLocaleEnIN n) := by
  unfold natLocaleEnIN
  intro hm
  rw [List.mem_reverse] at hm
  have hrev : NLFree (natStr n).reverse := by
    intro hx
    exact NLFree_natStr n (List.mem_reverse.mp hx)
  refine NLFree_joinSep (by decide) _ ?_ hm
  intro l hl
  rcases List.mem_cons.mp hl with rfl | hl
  · exact fun hx => hrev (List.take_subset _ _ hx)
  · exact fun hx => hrev (List.drop_subset _ _ (chunksTwo_mem _ l hl _ hx))

theorem NLFree_intLocaleEnIN (i : Int) : NLFree (intLocaleEnIN i) := by
  unfold intLocaleEnIN
  split
  · exact NLFree_cons (by decide) (NLFree_natLocaleEnIN _)
  · exact NLFree_natLocaleEnIN _

theorem NLFree_DecRender (d : Dec) : NLFree d.render := by
  unfold Dec.render
  dsimp only
  split
  · exact NLFree_intStr _
  · refine NLFree_append (NLFree_append (NLFree_append ?_ (NLFree_natStr _))
      (by decide)) ?_
    · split <;> simp [NLFree]
    · unfold padZeros
      refine NLFree_append ?_ (NLFree_natStr _)
      intro hm
      have := List.eq_of_mem_replicate hm
      exact absurd this (by decide)

theorem NLFree_formatCurrencyINR (m : NumOpt) : NLFree (formatCurrencyINR m) := by
  cases m with
  | null => decide
  | undef => decide
  | nan => decide
  | int n => exact NLFree_append (by decide) (NLFree_intLocaleEnIN n)

theorem NLFree_typeRender (t : LoanType) : NLFree t.render := by
  cases t <;> decide

theorem NLFree_roleUpper (r : Role) : NLFree r.upper := by
  cases r <;> decide

/-! ### Well-formed inputs and the line model of the prompt -/

/-- Benign product text content: no field value embeds a newline (which
would fabricate extra prompt lines), and the values that can end the
trimmed product context do not end in whitespace.  FAQ entries are
nonempty, as the Zod `ProductFaqSchema` requires (`min(1)`). -/
def WellFormedProduct (p : Product) : Prop :=
  NLFree p.name ∧ p.name ≠ [] ∧ NoTrailWS p.name ∧
  NLFree p.bank ∧ p.bank ≠ [] ∧ NoTrailWS p.bank ∧
  (∀ s, p.disbursal_speed = some s → NLFree s ∧ NoTrailWS s) ∧
  (∀ s, p.docs_level = some s → NLFree s ∧ NoTrailWS s) ∧
  (∀ s, p.summary = some s → NLFree s ∧ NoTrailWS s) ∧
  (∀ l, p.faq = some l → ∀ f ∈ l,
    NLFree f.q ∧ f.q ≠ [] ∧ NoTrailWS f.q ∧ NLFree f.a ∧ f.a ≠ [] ∧ NoTrailWS f.a)

/-- The prompt's first line. -/
def introLine (p : Product) : List Char :=
  str "You are a helpful loan advisor assistant. You are helping a customer understand the \"" ++
    p.name ++ str "\" loan product from " ++ p.bank ++ str "."

/-- Rule 2, with the embedded APR. -/
def rule2Line (p : Product) : List Char :=
  str "2. When referencing specific data, cite the field name (e.g., \"The APR is " ++
    p.rate_apr.render ++ str "% as stated in our product details\")"

/-- The six lines of the CRITICAL RULES block. -/
def rulesLines (p : Product) : List (List Char) :=
  [str "CRITICAL RULES:",
   str "1. Answer ONLY using the product information provided above",
   rule2Line p,
   str "3. If the user asks about information NOT in the product data, respond with: \"I don't have that specific information in our product database. However, I can help you with [list available topics] or connect you with our support team for detailed assistance.\"",
   str "4. Be conversational but accurate",
   str "5. If you're unsure, acknowledge it rather than guessing"]

/-- The three lines one FAQ entry contributes: a blank line, the numbered
question, the numbered answer. -/
def faqTriple (x : Nat × ProductFaq) : List (List Char) :=
  [[], str "Q" ++ natStr (x.1 + 1) ++ str ": " ++ x.2.q,
   str "A" ++ natStr (x.1 + 1) ++ str ": " ++ x.2.a]

/-- The lines of the FAQ region of the raw product context (before
trimming), including the surrounding blank lines. -/
def faqRegion (faq : Option (List ProductFaq)) : List (List Char) :=
  if faqPresent faq then
    [[], str "FREQUENTLY ASKED QUESTIONS:"] ++
      ((faq.getD []).enum.map faqTriple).flatten ++ [[], []]
  else [[], []]

/-- The optional-field lines (an omitted field leaves an empty line). -/
def optLines (p : Product) : List (List Char) :=
  [feeLine p, prepayLine p, disbursalLine p, docsLine p, summaryLine p, []]

/-- The eight unconditional lines of the product context. -/
def pcFixedLines (p : Product) : List (List Char) :=
  [str "PRODUCT INFORMATION:",
   str "- Product Name: " ++ p.name,
   str "- Bank: " ++ p.bank,
   str "- Loan Type: " ++ p.type.render,
   str "- Interest Rate (APR): " ++ p.rate_apr.render ++ str "%",
   str "- Minimum Income Required: " ++ formatCurrencyINR p.min_income ++
     str " per month",
   str "- Minimum Credit Score: " ++ intStr p.min_credit_score,
   str "- Tenure Range: " ++ intStr p.tenure_min_months ++ str " to " ++
     intStr p.tenure_max_months ++ str " months"]

/-- The lines of the trimmed product context. -/
def pcLines (p : Product) : List (List Char) :=
  pcFixedLines p ++ dropTrailEmpty (optLines p ++ faqRegion p.faq)

/-- The lines contributed by the history region (between the product
context and the user question). -/
def histRegion : List Turn → List (List Char)
  | [] => [[]]
  | t :: ts => [[], str "PREVIOUS CONVERSATION:"] ++ (t :: ts).map turnLine ++ [[]]

/-- The full line model of the grounded prompt. -/
def promptLines (p : Product) (q : List Char) (h : List Turn) :
    List (List Char) :=
  [introLine p, []] ++ rulesLines p ++ [[]] ++ pcLines p ++ [[]] ++ histRegion h ++
    [[], str "USER QUESTION: " ++ q, [], closingDirective]

/-! ### Trailing-trim lemmas -/

/-- A line either empty or ending in a non-whitespace character. -/
def CleanOrEmptyLine (l : List Char) : Prop :=
  l = [] ∨ (l ≠ [] ∧ NoTrailWS l)

theorem dropTrailWS_append_ws {x w : List Char} (hw : ∀ c ∈ w, isJSWS c = true) :
    dropTrailWS (x ++ w) = dropTrailWS x := by
  unfold dropTrailWS
  rw [List.reverse_append, List.dropWhile_append]
  have hnil : w.reverse.dropWhile isJSWS = [] :=
    List.dropWhile_eq_nil_iff.mpr (fun c hc => hw c (List.mem_reverse.mp hc))
  rw [hnil]
  rfl

theorem dropTrailWS_eq_self {s : List Char} (hnt : NoTrailWS s) :
    dropTrailWS s = s := by
  unfold dropTrailWS
  cases hr : s.reverse with
  | nil =>
    have : s = [] := by simpa using congrArg List.reverse hr
    subst this
    rfl
  | cons c r =>
    have hc : isJSWS c = false := by
      apply hnt
      rw [← List.head?_reverse, hr]
      rfl
    rw [List.dropWhile_cons, if_neg (by simp [hc])]
    rw [← hr, List.reverse_reverse]

theorem dropTrailWS_append_clean {x a : List Char} (ha : a ≠ [])
    (hnt : NoTrailWS a) : dropTrailWS (x ++ a) = x ++ a := by
  have h1 : dropTrailWS a = a := dropTrailWS_eq_self hnt
  rw [dropTrailWS_append (by rw [h1]; exact ha), h1]

theorem dropTrailWS_joinNL {L : List (List Char)}
    (h : ∀ l ∈ L, CleanOrEmptyLine l) :
    dropTrailWS (joinNL L) = joinNL (dropTrailEmpty L) := by
  induction L using List.reverseRecOn with
  | nil => rfl
  | append_singleton L' a ih =>
    rcases h a (by simp) with ha | ⟨hne, hnt⟩
    · subst ha
      cases L' with
      | nil => rfl
      | cons b t =>
        rw [joinNL_append (by simp) (b :: t) (by simp)]
        rw [show ('\n' :: joinNL [([] : List Char)]) = ['\n'] from rfl]
        rw [dropTrailWS_append_ws
          (by intro c hc; rcases List.mem_singleton.mp hc with rfl; rfl)]
        rw [ih (fun l hl => h l (List.mem_append_left _ hl))]
        rw [dropTrailEmpty_append_empty]
    · cases L' with
      | nil =>
        have h1 := dropTrailEmpty_append_ne [] hne (a := a)
        simp only [List.nil_append] at h1 ⊢
        rw [show joinNL [a] = a from rfl, dropTrailWS_eq_self hnt, h1]
        rfl
      | cons b t =>
        rw [joinNL_append (by simp) (b :: t) (by simp)]
        rw [show joinNL [a] = a from rfl]
        rw [show joinNL (b :: t) ++ '\n' :: a = (joinNL (b :: t) ++ ['\n']) ++ a by
          simp]
        rw [dropTrailWS_append_clean hne hnt]
        rw [dropTrailEmpty_append_ne _ hne]
        rw [joinNL_append (by simp) (b :: t) (by simp),
          show joinNL [a] = a from rfl]
        simp

theorem joinNL_cons_ne {a : List Char} {L : List (List Char)} (h : L ≠ []) :
    joinNL (a :: L) = a ++ '\n' :: joinNL L := by
  cases L with
  | nil => exact absurd rfl h
  | cons b t => rfl

theorem faq_stream (n : Nat) (l : List ProductFaq) :
    joinNL (((List.enumFrom n l).map faqTriple).flatten ++ [[], []]) =
      ((List.enumFrom n l).map (fun x => faqEntryStr x.1 x.2)).flatten ++ ['\n'] := by
  induction l generalizing n with
  | nil => rfl
  | cons f fs ih =>
    rw [List.enumFrom_cons]
    simp only [List.map_cons, List.flatten_cons]
    rw [show faqTriple (n, f) = [[], str "Q" ++ natStr (n + 1) ++ str ": " ++ f.q,
      str "A" ++ natStr (n + 1) ++ str ": " ++ f.a] from rfl]
    rw [show faqEntryStr (n, f).1 (n, f).2 =
      '\n' :: (str "Q" ++ natStr (n + 1) ++ str ": " ++ f.q ++
        ('\n' :: (str "A" ++ natStr (n + 1) ++ str ": " ++ f.a ++ ['\n']))) from by
      unfold faqEntryStr
      rw [show (str "\nQ" : List Char) = '\n' :: str "Q" from rfl,
        show (str "\nA" : List Char) = '\n' :: str "A" from rfl,
        show (str "\n" : List Char) = ['\n'] from rfl]
      simp [List.append_assoc]]
    rw [List.append_assoc]
    simp only [List.cons_append, List.nil_append]
    rw [joinNL_cons_ne (by simp)]
    rw [joinNL_cons_ne (by simp)]
    rw [joinNL_cons_ne (by simp)]
    rw [ih (n + 1)]
    simp [List.append_assoc]

theorem productContextRaw_joinNL (p : Product) :
    productContextRaw p =
      '\n' :: joinNL (pcFixedLines p ++ (optLines p ++ faqRegion p.faq)) := by
  unfold productContextRaw pcFixedLines optLines faqRegion faqBlock
  rw [show str "\nPRODUCT INFORMATION:\n- Product Name: " =
    '\n' :: (str "PRODUCT INFORMATION:" ++ ('\n' :: str "- Product Name: ")) from rfl]
  rw [show (str "\n- Bank: " : List Char) = '\n' :: str "- Bank: " from rfl]
  rw [show (str "\n- Loan Type: " : List Char) = '\n' :: str "- Loan Type: " from rfl]
  rw [show (str "\n- Interest Rate (APR): " : List Char) =
    '\n' :: str "- Interest Rate (APR): " from rfl]
  rw [show str "%\n- Minimum Income Required: " =
    str "%" ++ ('\n' :: str "- Minimum Income Required: ") from rfl]
  rw [show str " per month\n- Minimum Credit Score: " =
    str " per month" ++ ('\n' :: str "- Minimum Credit Score: ") from rfl]
  rw [show (str "\n- Tenure Range: " : List Char) =
    '\n' :: str "- Tenure Range: " from rfl]
  rw [show (str " months\n" : List Char) = str " months" ++ ['\n'] from rfl]
  rw [show (str "\n" : List Char) = ['\n'] from rfl]
  rw [show (str "\n\n" : List Char) = ['\n', '\n'] from rfl]
  by_cases hf : faqPresent p.faq = true
  · rw [if_pos hf, if_pos hf]
    rw [show str "\nFREQUENTLY ASKED QUESTIONS:\n" =
      '\n' :: (str "FREQUENTLY ASKED QUESTIONS:" ++ ['\n']) from rfl]
    rw [show (p.faq.getD []).enum = List.enumFrom 0 (p.faq.getD []) from rfl]
    simp only [List.cons_append, List.nil_append]
    rw [joinNL_cons_ne (by simp), joinNL_cons_ne (by simp), joinNL_cons_ne (by simp),
      joinNL_cons_ne (by simp), joinNL_cons_ne (by simp), joinNL_cons_ne (by simp),
      joinNL_cons_ne (by simp), joinNL_cons_ne (by simp), joinNL_cons_ne (by simp),
      joinNL_cons_ne (by simp), joinNL_cons_ne (by simp), joinNL_cons_ne (by simp),
      joinNL_cons_ne (by simp), joinNL_cons_ne (by simp), joinNL_cons_ne (by simp),
      joinNL_cons_ne (by simp)]
    rw [faq_stream 0]
    simp [List.append_assoc]
  · have hf' : faqPresent p.faq = false := by
      cases hx : faqPresent p.faq with
      | false => rfl
      | true => exact absurd hx hf
    rw [if_neg (by simp [hf']), if_neg (by simp [hf'])]
    simp only [List.cons_append, List.nil_append]
    simp only [joinNL]
    simp [List.append_assoc]

theorem noTrail_of_getLast {s : List Char} {b : Char} (hs : s.getLast? = some b)
    (hb : isJSWS b = false) : NoTrailWS s := by
  intro c hc
  rw [hs] at hc
  cases hc
  exact hb

theorem noTrail_of_concat {x : List Char} {c : Char} (hc : isJSWS c = false) :
    NoTrailWS (x ++ [c]) := by
  intro d hd
  rw [List.getLast?_concat] at hd
  cases hd
  exact hc

theorem noTrail_append_right {x a : List Char} (ha : a ≠ []) (hnt : NoTrailWS a) :
    NoTrailWS (x ++ a) := by
  obtain ⟨b, hb⟩ : ∃ b, a.getLast? = some b := by
    cases hga : a.getLast? with
    | none => exact absurd (List.getLast?_eq_none_iff.mp hga) ha
    | some b => exact ⟨b, rfl⟩
  intro d hd
  rw [List.getLast?_append, hb] at hd
  have hd2 : some b = some d := hd
  cases hd2
  exact hnt b hb

theorem feeLine_clean (p : Product) : CleanOrEmptyLine (feeLine p) := by
  unfold feeLine
  split
  · right
    constructor
    · intro h
      have := (List.append_eq_nil.mp h).2
      exact absurd this (by decide)
    · exact noTrail_of_concat (by decide)
  · left
    rfl

theorem prepayLine_clean (p : Product) : CleanOrEmptyLine (prepayLine p) := by
  unfold prepayLine
  split
  · right
    constructor
    · intro h
      have h2 := (List.append_eq_nil.mp h).2
      revert h2
      split <;> decide
    · split
      · exact noTrail_append_right (by decide)
          (noTrail_of_getLast (show (str "Yes").getLast? = some 's' from rfl) (by decide))
      · exact noTrail_append_right (by decide)
          (noTrail_of_getLast (show (str "No").getLast? = some 'o' from rfl) (by decide))
  · left
    rfl

theorem strOptLine_clean {v : Option (List Char)} {lit : List Char}
    (hwv : ∀ s, v = some s → NLFree s ∧ NoTrailWS s) :
    CleanOrEmptyLine (if truthyStr v then lit ++ v.getD [] else []) := by
  cases hv : v with
  | none => simp [truthyStr, CleanOrEmptyLine]
  | some s =>
    subst hv
    by_cases hs0 : s = []
    · subst hs0
      simp [truthyStr, CleanOrEmptyLine]
    · have ht : truthyStr (some s) = true := by
        simp only [truthyStr, Bool.not_eq_false']
        cases s with
        | nil => exact absurd rfl hs0
        | cons a t => rfl
      simp only [ht, if_true, Option.getD_some]
      right
      refine ⟨fun h => hs0 (List.append_eq_nil.mp h).2,
        noTrail_append_right hs0 (hwv s rfl).2⟩

theorem disbursalLine_clean (p : Product)
    (h : ∀ s, p.disbursal_speed = some s → NLFree s ∧ NoTrailWS s) :
    CleanOrEmptyLine (disbursalLine p) := strOptLine_clean h

theorem docsLine_clean (p : Product)
    (h : ∀ s, p.docs_level = some s → NLFree s ∧ NoTrailWS s) :
    CleanOrEmptyLine (docsLine p) := strOptLine_clean h

theorem summaryLine_clean (p : Product)
    (h : ∀ s, p.summary = some s → NLFree s ∧ NoTrailWS s) :
    CleanOrEmptyLine (summaryLine p) := strOptLine_clean h

theorem faqRegion_clean (p : Product)
    (hfaq : ∀ l, p.faq = some l → ∀ f ∈ l,
      NLFree f.q ∧ f.q ≠ [] ∧ NoTrailWS f.q ∧ NLFree f.a ∧ f.a ≠ [] ∧ NoTrailWS f.a) :
    ∀ l ∈ faqRegion p.faq, CleanOrEmptyLine l := by
  intro l hl
  unfold faqRegion at hl
  split at hl
  · rename_i htr
    obtain ⟨l₀, hl₀⟩ : ∃ l₀, p.faq = some l₀ := by
      cases hx : p.faq with
      | none => rw [hx] at htr; simp [faqPresent] at htr
      | some l₀ => exact ⟨l₀, rfl⟩
    rcases List.mem_append.mp hl with hl1 | hl2
    · rcases List.mem_append.mp hl1 with hl3 | hl4
      · rcases List.mem_cons.mp hl3 with rfl | hl5
        · left; rfl
        · rcases List.mem_singleton.mp hl5 with rfl
          right
          exact ⟨by decide, noTrail_of_getLast
            (show (str "FREQUENTLY ASKED QUESTIONS:").getLast? = some ':' from rfl)
            (by decide)⟩
      · rcases List.mem_flatten.mp hl4 with ⟨tr, htr2, hltr⟩
        rcases List.mem_map.mp htr2 with ⟨x, hx, rfl⟩
        rw [hl₀] at hx
        simp only [Option.getD_some] at hx
        obtain ⟨i, f⟩ := x
        have hf : f ∈ l₀ := by
          obtain ⟨-, -, hx2⟩ := List.mem_enumFrom hx
          rw [hx2]
          exact List.getElem_mem _
        obtain ⟨-, hqne, hqnt, -, hane, hant⟩ := hfaq l₀ hl₀ f hf
        simp only [faqTriple, List.mem_cons, List.mem_singleton,
          List.not_mem_nil, or_false] at hltr
        rcases hltr with rfl | rfl | rfl
        · left; rfl
        · right
          exact ⟨fun h => hqne (List.append_eq_nil.mp h).2,
            noTrail_append_right hqne hqnt⟩
        · right
          exact ⟨fun h => hane (List.append_eq_nil.mp h).2,
            noTrail_append_right hane hant⟩
    · rcases List.mem_cons.mp hl2 with rfl | hl5
      · left; rfl
      · rcases List.mem_singleton.mp hl5 with rfl
        left
        rfl
  · rcases List.mem_cons.mp hl with rfl | hl5
    · left; rfl
    · rcases List.mem_singleton.mp hl5 with rfl
      left
      rfl

theorem isJSWS_digitChar (d : Nat) : isJSWS (digitChar d) = false := by
  unfold digitChar
  split <;> decide

theorem natStrAux_ne_nil (fuel n : Nat) : natStrAux (fuel + 1) n ≠ [] := by
  unfold natStrAux
  split
  · simp
  · simp

theorem natStr_ne_nil (n : Nat) : natStr n ≠ [] := natStrAux_ne_nil n n

theorem noTrail_natStrAux (fuel n : Nat) : NoTrailWS (natStrAux fuel n) := by
  induction fuel generalizing n with
  | zero =>
    intro c hc
    simp [natStrAux] at hc
  | succ f ih =>
    unfold natStrAux
    split
    · intro c hc
      simp only [List.getLast?_singleton, Option.some.injEq] at hc
      rw [← hc]
      exact isJSWS_digitChar n
    · exact noTrail_of_concat (isJSWS_digitChar (n % 10))

theorem noTrail_natStr (n : Nat) : NoTrailWS (natStr n) := noTrail_natStrAux (n + 1) n

theorem noTrail_intStr (i : Int) : NoTrailWS (intStr i) := by
  unfold intStr
  split
  · rw [show ('-' :: natStr i.natAbs) = ['-'] ++ natStr i.natAbs from rfl]
    exact noTrail_append_right (natStr_ne_nil _) (noTrail_natStr _)
  · exact noTrail_natStr _

theorem intStr_ne_nil (i : Int) : intStr i ≠ [] := by
  unfold intStr
  split
  · simp
  · exact natStr_ne_nil _

theorem typeRender_clean (t : LoanType) : t.render ≠ [] ∧ NoTrailWS t.render := by
  cases t <;> exact ⟨by decide, noTrail_of_getLast rfl (by decide)⟩

theorem dropTrailEmpty_append (A B : List (List Char))
    (hA : ∃ A' a, A = A' ++ [a] ∧ a ≠ []) :
    dropTrailEmpty (A ++ B) = A ++ dropTrailEmpty B := by
  obtain ⟨A', a, rfl, ha⟩ := hA
  have hisa : a.isEmpty = false := by
    cases a with
    | nil => exact absurd rfl ha
    | cons x xs => rfl
  unfold dropTrailEmpty
  rw [List.reverse_append, List.dropWhile_append]
  split
  · rename_i hcase
    have hBnil : B.reverse.dropWhile List.isEmpty = [] := List.isEmpty_iff.mp hcase
    rw [hBnil]
    simp [List.reverse_append, List.dropWhile_cons, hisa]
  · rw [List.reverse_append, List.reverse_reverse]

theorem pcFixedLines_clean (p : Product) (hwf : WellFormedProduct p) :
    ∀ l ∈ pcFixedLines p, CleanOrEmptyLine l := by
  obtain ⟨hname, hnamene, hnament, hbank, hbankne, hbanknt, -⟩ := hwf
  intro l hl
  unfold pcFixedLines at hl
  simp only [List.mem_cons, List.mem_singleton, List.not_mem_nil, or_false] at hl
  rcases hl with rfl | rfl | rfl | rfl | rfl | rfl | rfl | rfl
  · exact Or.inr ⟨by decide,
      noTrail_of_getLast (show (str "PRODUCT INFORMATION:").getLast? = some ':' from rfl)
        (by decide)⟩
  · exact Or.inr ⟨fun h => absurd (List.append_eq_nil.mp h).1 (by decide),
      noTrail_append_right hnamene hnament⟩
  · exact Or.inr ⟨fun h => absurd (List.append_eq_nil.mp h).1 (by decide),
      noTrail_append_right hbankne hbanknt⟩
  · exact Or.inr ⟨fun h => absurd (List.append_eq_nil.mp h).1 (by decide),
      noTrail_append_right (typeRender_clean p.type).1 (typeRender_clean p.type).2⟩
  · exact Or.inr ⟨fun h => absurd (List.append_eq_nil.mp h).2 (by decide),
      noTrail_of_concat (by decide)⟩
  · exact Or.inr ⟨fun h => absurd (List.append_eq_nil.mp h).2 (by decide),
      noTrail_append_right (by decide)
        (noTrail_of_getLast (show (str " per month").getLast? = some 'h' from rfl)
          (by decide))⟩
  · exact Or.inr ⟨fun h => absurd (List.append_eq_nil.mp h).1 (by decide),
      noTrail_append_right (intStr_ne_nil _) (noTrail_intStr _)⟩
  · exact Or.inr ⟨fun h => absurd (List.append_eq_nil.mp h).2 (by decide),
      noTrail_append_right (by decide)
        (noTrail_of_getLast (show (str " months").getLast? = some 's' from rfl)
          (by decide))⟩

theorem pcFixedLines_split (p : Product) :
    ∃ A' a, pcFixedLines p = A' ++ [a] ∧ a ≠ [] := by
  refine ⟨[str "PRODUCT INFORMATION:",
    str "- Product Name: " ++ p.name,
    str "- Bank: " ++ p.bank,
    str "- Loan Type: " ++ p.type.render,
    str "- Interest Rate (APR): " ++ p.rate_apr.render ++ str "%",
    str "- Minimum Income Required: " ++ formatCurrencyINR p.min_income ++
      str " per month",
    str "- Minimum Credit Score: " ++ intStr p.min_credit_score],
    str "- Tenure Range: " ++ intStr p.tenure_min_months ++ str " to " ++
      intStr p.tenure_max_months ++ str " months", rfl, ?_⟩
  intro h
  exact absurd (List.append_eq_nil.mp h).2 (by decide)

theorem dropLeadWS_litPI (x : List Char) :
    dropLeadWS (str "PRODUCT INFORMATION:" ++ x) = str "PRODUCT INFORMATION:" ++ x :=
  dropLeadWS_cons_nonws (by decide) _

theorem productContext_joinNL (p : Product) (hwf : WellFormedProduct p) :
    productContext p = joinNL (pcLines p) := by
  have hclean : ∀ l ∈ pcFixedLines p ++ (optLines p ++ faqRegion p.faq),
      CleanOrEmptyLine l := by
    have hwf2 := hwf
    obtain ⟨-, -, -, -, -, -, hdisb, hdocs, hsum, hfaq⟩ := hwf2
    intro l hl
    rcases List.mem_append.mp hl with hl | hl
    · exact pcFixedLines_clean p hwf l hl
    · rcases List.mem_append.mp hl with hl | hl
      · unfold optLines at hl
        simp only [List.mem_cons, List.mem_singleton, List.not_mem_nil, or_false] at hl
        rcases hl with rfl | rfl | rfl | rfl | rfl | rfl
        · exact feeLine_clean p
        · exact prepayLine_clean p
        · exact disbursalLine_clean p hdisb
        · exact docsLine_clean p hdocs
        · exact summaryLine_clean p hsum
        · exact Or.inl rfl
      · exact faqRegion_clean p hfaq l hl
  unfold productContext trimWS
  rw [productContextRaw_joinNL p]
  rw [dropLeadWS_cons_ws (by decide)]
  obtain ⟨R, hR⟩ : ∃ R, joinNL (pcFixedLines p ++ (optLines p ++ faqRegion p.faq)) =
      str "PRODUCT INFORMATION:" ++ R := ⟨_, rfl⟩
  rw [hR, dropLeadWS_litPI, ← hR]
  rw [dropTrailWS_joinNL hclean]
  rw [dropTrailEmpty_append (pcFixedLines p) _ (pcFixedLines_split p)]
  rfl

theorem promptIntro_eq (p : Product) :
    promptIntro p = introLine p ++ ['\n', '\n'] := by
  unfold promptIntro introLine
  rw [show str ".\n\n" = str "." ++ ['\n', '\n'] from rfl]
  simp [List.append_assoc]

set_option maxRecDepth 4000 in
theorem rulesBlock_eq (p : Product) : rulesBlock p = joinNL (rulesLines p) := by
  unfold rulesBlock rulesLines rule2Line
  rw [show str "CRITICAL RULES:\n1. Answer ONLY using the product information provided above\n2. When referencing specific data, cite the field name (e.g., \"The APR is " =
    str "CRITICAL RULES:" ++ '\n' ::
      (str "1. Answer ONLY using the product information provided above" ++ '\n' ::
        str "2. When referencing specific data, cite the field name (e.g., \"The APR is ") from rfl]
  rw [show str "% as stated in our product details\")\n3. If the user asks about information NOT in the product data, respond with: \"I don't have that specific information in our product database. However, I can help you with [list available topics] or connect you with our support team for detailed assistance.\"\n4. Be conversational but accurate\n5. If you're unsure, acknowledge it rather than guessing" =
    str "% as stated in our product details\")" ++ '\n' ::
      (str "3. If the user asks about information NOT in the product data, respond with: \"I don't have that specific information in our product database. However, I can help you with [list available topics] or connect you with our support team for detailed assistance.\"" ++ '\n' ::
        (str "4. Be conversational but accurate" ++ '\n' ::
          str "5. If you're unsure, acknowledge it rather than guessing")) from rfl]
  rw [joinNL_cons₂, joinNL_cons₂, joinNL_cons₂, joinNL_cons₂, joinNL_cons₂]
  rw [show joinNL [str "5. If you're unsure, acknowledge it rather than guessing"] =
    str "5. If you're unsure, acknowledge it rather than guessing" from rfl]
  simp [List.append_assoc]

theorem historyContext_joinNL (h : List Turn) :
    historyContext h = joinNL (histRegion h) := by
  cases h with
  | nil => rfl
  | cons t ts =>
    unfold historyContext histRegion
    rw [if_pos (by simp)]
    simp only [List.cons_append, List.nil_append]
    rw [joinNL_cons₂, joinNL_cons_ne (by simp)]
    rw [joinNL_append (by simp) ((t :: ts).map turnLine) (by simp)]
    rw [show joinNL [([] : List Char)] = [] from rfl]
    rw [show str "\nPREVIOUS CONVERSATION:\n" =
      '\n' :: (str "PREVIOUS CONVERSATION:" ++ ['\n']) from rfl]
    rw [show str "\n" = ['\n'] from rfl]
    simp [List.append_assoc]

theorem buildGroundedPrompt_joinNL (p : Product) (q : List Char) (h : List Turn)
    (hwf : WellFormedProduct p) :
    buildGroundedPrompt p q h = joinNL (promptLines p q h) := by
  unfold buildGroundedPrompt promptLines
  rw [promptIntro_eq, rulesBlock_eq, productContext_joinNL p hwf,
    historyContext_joinNL]
  simp only [List.append_assoc]
  rw [joinNL_append (by simp [rulesLines]) [introLine p, []] (by simp)]
  rw [joinNL_append (by simp) (rulesLines p) (by simp [rulesLines])]
  rw [joinNL_append (by simp [pcLines, pcFixedLines]) [([] : List Char)] (by simp)]
  rw [joinNL_append (by simp) (pcLines p) (by simp [pcLines, pcFixedLines])]
  rw [joinNL_append (by cases h <;> simp [histRegion]) [([] : List Char)] (by simp)]
  rw [joinNL_append (by simp) (histRegion h) (by cases h <;> simp [histRegion])]
  rw [show joinNL [introLine p, []] = introLine p ++ ['\n'] from rfl]
  rw [show joinNL [([] : List Char)] = [] from rfl]
  rw [show joinNL [[], str "USER QUESTION: " ++ q, [], closingDirective] =
    '\n' :: ((str "USER QUESTION: " ++ q) ++ '\n' :: '\n' :: closingDirective) from rfl]
  rw [show str "\n\n" = ['\n', '\n'] from rfl]
  rw [show str "\n\nUSER QUESTION: " = '\n' :: '\n' :: str "USER QUESTION: " from rfl]
  simp [List.append_assoc]

theorem mem_dropTrailEmpty {l : List Char} {L : List (List Char)}
    (h : l ∈ dropTrailEmpty L) : l ∈ L := by
  obtain ⟨w, hw, -⟩ := dropTrailEmpty_decomp L
  rw [hw]
  exact List.mem_append_left _ h

theorem NLFree_feeLine (p : Product) : NLFree (feeLine p) := by
  unfold feeLine
  split
  · exact NLFree_append (NLFree_append (by decide) (NLFree_DecRender _)) (by decide)
  · exact List.not_mem_nil _

theorem NLFree_prepayLine (p : Product) : NLFree (prepayLine p) := by
  unfold prepayLine
  split
  · apply NLFree_append (by decide)
    split <;> decide
  · exact List.not_mem_nil _

theorem NLFree_strOptLine {v : Option (List Char)} {lit : List Char}
    (hlit : NLFree lit) (hv : ∀ s, v = some s → NLFree s) :
    NLFree (if truthyStr v then lit ++ v.getD [] else []) := by
  cases hcv : v with
  | none =>
    rw [if_neg (by simp [truthyStr])]
    exact List.not_mem_nil _
  | some s =>
    cases htv : truthyStr (some s) with
    | false =>
      rw [if_neg (by simp [htv])]
      exact List.not_mem_nil _
    | true =>
      rw [if_pos (by simp [htv])]
      exact NLFree_append hlit (hv s hcv)

theorem NLFree_faqRegion (p : Product)
    (hfaq : ∀ l, p.faq = some l → ∀ f ∈ l,
      NLFree f.q ∧ f.q ≠ [] ∧ NoTrailWS f.q ∧ NLFree f.a ∧ f.a ≠ [] ∧ NoTrailWS f.a) :
    ∀ l ∈ faqRegion p.faq, NLFree l := by
  intro l hl
  unfold faqRegion at hl
  split at hl
  · rename_i htr
    obtain ⟨l₀, hl₀⟩ : ∃ l₀, p.faq = some l₀ := by
      cases hx : p.faq with
      | none => rw [hx] at htr; simp [faqPresent] at htr
      | some l₀ => exact ⟨l₀, rfl⟩
    rcases List.mem_append.mp hl with hl1 | hl2
    · rcases List.mem_append.mp hl1 with hl3 | hl4
      · rcases List.mem_cons.mp hl3 with rfl | hl5
        · exact List.not_mem_nil _
        · rcases List.mem_singleton.mp hl5 with rfl
          decide
      · rcases List.mem_flatten.mp hl4 with ⟨tr, htr2, hltr⟩
        rcases List.mem_map.mp htr2 with ⟨x, hx, rfl⟩
        rw [hl₀] at hx
        simp only [Option.getD_some] at hx
        obtain ⟨i, f⟩ := x
        have hf : f ∈ l₀ := by
          obtain ⟨-, -, hx2⟩ := List.mem_enumFrom hx
          rw [hx2]
          exact List.getElem_mem _
        obtain ⟨hqnl, -, -, hanl, -, -⟩ := hfaq l₀ hl₀ f hf
        simp only [faqTriple, List.mem_cons, List.mem_singleton,
          List.not_mem_nil, or_false] at hltr
        rcases hltr with rfl | rfl | rfl
        · exact List.not_mem_nil _
        · exact NLFree_append (NLFree_append (NLFree_append (by decide)
            (NLFree_natStr _)) (by decide)) hqnl
        · exact NLFree_append (NLFree_append (NLFree_append (by decide)
            (NLFree_natStr _)) (by decide)) hanl
    · rcases List.mem_cons.mp hl2 with rfl | hl5
      · exact List.not_mem_nil _
      · rcases List.mem_singleton.mp hl5 with rfl
        exact List.not_mem_nil _
  · rcases List.mem_cons.mp hl with rfl | hl5
    · exact List.not_mem_nil _
    · rcases List.mem_singleton.mp hl5 with rfl
      exact List.not_mem_nil _

theorem NLFree_pcLines (p : Product) (hwf : WellFormedProduct p) :
    ∀ l ∈ pcLines p, NLFree l := by
  obtain ⟨hname, -, -, hbank, -, -, hdisb, hdocs, hsum, hfaq⟩ := hwf
  intro l hl
  unfold pcLines at hl
  rcases List.mem_append.mp hl with hl | hl
  · unfold pcFixedLines at hl
    simp only [List.mem_cons, List.mem_singleton, List.not_mem_nil,
      or_false] at hl
    rcases hl with rfl | rfl | rfl | rfl | rfl | rfl | rfl | rfl
    · decide
    · exact NLFree_append (by decide) hname
    · exact NLFree_append (by decide) hbank
    · exact NLFree_append (by decide) (NLFree_typeRender _)
    · exact NLFree_append (NLFree_append (by decide) (NLFree_DecRender _))
        (by decide)
    · exact NLFree_append (NLFree_append (by decide)
        (NLFree_formatCurrencyINR _)) (by decide)
    · exact NLFree_append (by decide) (NLFree_intStr _)
    · exact NLFree_append (NLFree_append (NLFree_append (NLFree_append
        (by decide) (NLFree_intStr _)) (by decide)) (NLFree_intStr _))
        (by decide)
  · have hl2 := mem_dropTrailEmpty hl
    rcases List.mem_append.mp hl2 with hl3 | hl4
    · unfold optLines at hl3
      simp only [List.mem_cons, List.mem_singleton, List.not_mem_nil,
        or_false] at hl3
      rcases hl3 with rfl | rfl | rfl | rfl | rfl | rfl
      · exact NLFree_feeLine p
      · exact NLFree_prepayLine p
      · exact NLFree_strOptLine (by decide) (fun s hs => (hdisb s hs).1)
      · exact NLFree_strOptLine (by decide) (fun s hs => (hdocs s hs).1)
      · exact NLFree_strOptLine (by decide) (fun s hs => (hsum s hs).1)
      · exact List.not_mem_nil _
    · exact NLFree_faqRegion p hfaq l hl4

theorem NLFree_histRegion (h : List Turn) (hh : ∀ t ∈ h, NLFree t.content) :
    ∀ l ∈ histRegion h, NLFree l := by
  intro l hl
  cases h with
  | nil =>
    have hl' : l ∈ [([] : List Char)] := hl
    rcases List.mem_singleton.mp hl' with rfl
    exact List.not_mem_nil _
  | cons t ts =>
    have hl' : l ∈ [[], str "PREVIOUS CONVERSATION:"] ++
        (t :: ts).map turnLine ++ [[]] := hl
    rcases List.mem_append.mp hl' with hl1 | hl2
    · rcases List.mem_append.mp hl1 with hl3 | hl4
      · rcases List.mem_cons.mp hl3 with rfl | hl5
        · exact List.not_mem_nil _
        · rcases List.mem_singleton.mp hl5 with rfl
          decide
      · rcases List.mem_map.mp hl4 with ⟨tn, htn, rfl⟩
        unfold turnLine
        exact NLFree_append (NLFree_append (NLFree_roleUpper _) (by decide))
          (hh tn htn)
    · rcases List.mem_singleton.mp hl2 with rfl
      exact List.not_mem_nil _

theorem promptLines_NLFree (p : Product) (q : List Char) (h : List Turn)
    (hwf : WellFormedProduct p) (hq : NLFree q)
    (hh : ∀ t ∈ h, NLFree t.content) :
    ∀ l ∈ promptLines p q h, '\n' ∉ l := by
  have hwf2 := hwf
  obtain ⟨hname, -, -, hbank, -, -, -, -, -, -⟩ := hwf2
  intro l hl
  unfold promptLines at hl
  simp only [List.mem_append] at hl
  rcases hl with ((((((h0 | h1) | h2) | h3) | h4) | h5) | h6)
  · rcases List.mem_cons.mp h0 with rfl | h0'
    · exact NLFree_append (NLFree_append (NLFree_append (NLFree_append
        (by decide) hname) (by decide)) hbank) (by decide)
    · rcases List.mem_singleton.mp h0' with rfl
      exact List.not_mem_nil _
  · unfold rulesLines rule2Line at h1
    simp only [List.mem_cons, List.mem_singleton, List.not_mem_nil,
      or_false] at h1
    rcases h1 with rfl | rfl | rfl | rfl | rfl | rfl
    · decide
    · decide
    · exact NLFree_append (NLFree_append (by decide) (NLFree_DecRender _))
        (by decide)
    · decide
    · decide
    · decide
  · rcases List.mem_singleton.mp h2 with rfl
    exact List.not_mem_nil _
  · exact NLFree_pcLines p hwf l h3
  · rcases List.mem_singleton.mp h4 with rfl
    exact List.not_mem_nil _
  · exact NLFree_histRegion h hh l h5
  · simp only [List.mem_cons, List.mem_singleton, List.not_mem_nil,
      or_false] at h6
    rcases h6 with rfl | rfl | rfl | rfl
    · exact List.not_mem_nil _
    · exact NLFree_append (by decide) hq
    · exact List.not_mem_nil _
    · decide

theorem splitNL_prompt (p : Product) (q : List Char) (h : List Turn)
    (hwf : WellFormedProduct p) (hq : NLFree q)
    (hh : ∀ t ∈ h, NLFree t.content) :
    splitNL (buildGroundedPrompt p q h) = promptLines p q h := by
  rw [buildGroundedPrompt_joinNL p q h hwf]
  exact splitNL_joinNL (by simp [promptLines])
    (promptLines_NLFree p q h hwf hq hh)

theorem faqALine_ne (k : Nat) (s : List Char) :
    str "A" ++ natStr k ++ str ": " ++ s ≠ [] := by
  intro hc
  have h1 := (List.append_eq_nil.mp hc).1
  have h2 := (List.append_eq_nil.mp h1).1
  exact absurd (List.append_eq_nil.mp h2).1 (by decide)

theorem triples_flatten_last : ∀ (n : Nat) (l : List ProductFaq), l ≠ [] →
    ∃ Y a, ((List.enumFrom n l).map faqTriple).flatten = Y ++ [a] ∧ a ≠ []
  | _, [], h => absurd rfl h
  | n, [f], _ =>
    ⟨[[], str "Q" ++ natStr (n + 1) ++ str ": " ++ f.q],
      str "A" ++ natStr (n + 1) ++ str ": " ++ f.a,
      by simp [faqTriple], faqALine_ne (n + 1) f.a⟩
  | n, f :: g :: t, _ => by
    obtain ⟨Y, a, hY, ha⟩ := triples_flatten_last (n + 1) (g :: t) (by simp)
    refine ⟨faqTriple (n, f) ++ Y, a, ?_, ha⟩
    rw [show List.enumFrom n (f :: g :: t) =
      (n, f) :: List.enumFrom (n + 1) (g :: t) from rfl]
    rw [List.map_cons, List.flatten_cons, hY, List.append_assoc]

theorem dTE_optFaq_shape (O F Y : List (List Char)) {a : List Char}
    (ha : a ≠ []) :
    dropTrailEmpty (O ++ (F ++ ((Y ++ [a]) ++ [[], []]))) =
      O ++ (F ++ (Y ++ [a])) := by
  calc dropTrailEmpty (O ++ (F ++ ((Y ++ [a]) ++ [[], []])))
      = dropTrailEmpty (((((O ++ F) ++ Y) ++ [a]) ++ [[]]) ++ [[]]) := by
        congr 1
        simp
    _ = dropTrailEmpty ((((O ++ F) ++ Y) ++ [a]) ++ [[]]) :=
        dropTrailEmpty_append_empty _
    _ = dropTrailEmpty (((O ++ F) ++ Y) ++ [a]) :=
        dropTrailEmpty_append_empty _
    _ = ((O ++ F) ++ Y) ++ [a] := dropTrailEmpty_append_ne _ ha
    _ = O ++ (F ++ (Y ++ [a])) := by simp

theorem dropTrailEmpty_optFaq (p : Product) (l : List ProductFaq)
    (hfaq : p.faq = some l) (hl : l ≠ []) :
    dropTrailEmpty (optLines p ++ faqRegion p.faq) =
      optLines p ++ ([[], str "FREQUENTLY ASKED QUESTIONS:"] ++
        ((List.enumFrom 0 l).map faqTriple).flatten) := by
  rw [hfaq]
  unfold faqRegion
  rw [if_pos (by
    cases l with
    | nil => exact absurd rfl hl
    | cons a t => simp [faqPresent])]
  simp only [Option.getD_some]
  obtain ⟨Y, a, hY, ha⟩ := triples_flatten_last 0 l hl
  rw [show l.enum = List.enumFrom 0 l from rfl, hY]
  exact dTE_optFaq_shape (optLines p) [[], str "FREQUENTLY ASKED QUESTIONS:"]
    Y ha

theorem promptLines_faq_decomp (p : Product) (q : List Char) (h : List Turn)
    (l : List ProductFaq) (hfaq : p.faq = some l) (hl : l ≠ []) :
    promptLines p q h =
      ([introLine p, []] ++ rulesLines p ++ [[]] ++ pcFixedLines p ++
        optLines p ++ [[], str "FREQUENTLY ASKED QUESTIONS:"]) ++
      ((List.enumFrom 0 l).map faqTriple).flatten ++
      ([[]] ++ histRegion h ++ [[], str "USER QUESTION: " ++ q, [],
        closingDirective]) := by
  unfold promptLines pcLines
  rw [dropTrailEmpty_optFaq p l hfaq hl]
  simp [List.append_assoc]

theorem filter_triples (n : Nat) (l : List ProductFaq) :
    (((List.enumFrom n l).map faqTriple).flatten).filter
        (fun ln : List Char => ln.head? == some 'Q') =
      (List.enumFrom n l).map
        (fun x => str "Q" ++ natStr (x.1 + 1) ++ str ": " ++ x.2.q) := by
  induction l generalizing n with
  | nil => rfl
  | cons f t ih =>
    rw [show List.enumFrom n (f :: t) = (n, f) :: List.enumFrom (n + 1) t
      from rfl]
    rw [List.map_cons, List.flatten_cons, List.filter_append, ih (n + 1)]
    rfl

theorem head_beq_false (c d : Char) {ln : List Char} (h : ln.head? = some c)
    (hcd : c ≠ d) : (ln.head? == some d) = false := by
  rw [h]
  simp [hcd]

theorem not_true_of_false {b : Bool} (h : b = false) : ¬b = true := by
  simp [h]

theorem turnLine_head (t : Turn) :
    (turnLine t).head? = some 'U' ∨ (turnLine t).head? = some 'A' := by
  cases hr : t.role with
  | user =>
    left
    unfold turnLine
    rw [hr]
    rfl
  | assistant =>
    right
    unfold turnLine
    rw [hr]
    rfl

theorem filterQ_pre (p : Product) :
    ([introLine p, []] ++ rulesLines p ++ [[]] ++ pcFixedLines p ++
      optLines p ++ [[], str "FREQUENTLY ASKED QUESTIONS:"]).filter
        (fun ln : List Char => ln.head? == some 'Q') = [] := by
  rw [List.filter_eq_nil_iff]
  intro a ha
  simp only [List.mem_append] at ha
  rcases ha with ((((h0 | h1) | h2) | h3) | h4) | h5
  · rcases List.mem_cons.mp h0 with rfl | h0'
    · exact not_true_of_false (head_beq_false 'Y' 'Q' rfl (by decide))
    · rcases List.mem_singleton.mp h0' with rfl
      exact not_true_of_false rfl
  · unfold rulesLines rule2Line at h1
    simp only [List.mem_cons, List.mem_singleton, List.not_mem_nil,
      or_false] at h1
    rcases h1 with rfl | rfl | rfl | rfl | rfl | rfl
    · exact not_true_of_false (head_beq_false 'C' 'Q' rfl (by decide))
    · exact not_true_of_false (head_beq_false '1' 'Q' rfl (by decide))
    · exact not_true_of_false (head_beq_false '2' 'Q' rfl (by decide))
    · exact not_true_of_false (head_beq_false '3' 'Q' rfl (by decide))
    · exact not_true_of_false (head_beq_false '4' 'Q' rfl (by decide))
    · exact not_true_of_false (head_beq_false '5' 'Q' rfl (by decide))
  · rcases List.mem_singleton.mp h2 with rfl
    exact not_true_of_false rfl
  · unfold pcFixedLines at h3
    simp only [List.mem_cons, List.mem_singleton, List.not_mem_nil,
      or_false] at h3
    rcases h3 with rfl | rfl | rfl | rfl | rfl | rfl | rfl | rfl
    · exact not_true_of_false (head_beq_false 'P' 'Q' rfl (by decide))
    · exact not_true_of_false (head_beq_false '-' 'Q' rfl (by decide))
    · exact not_true_of_false (head_beq_false '-' 'Q' rfl (by decide))
    · exact not_true_of_false (head_beq_false '-' 'Q' rfl (by decide))
    · exact not_true_of_false (head_beq_false '-' 'Q' rfl (by decide))
    · exact not_true_of_false (head_beq_false '-' 'Q' rfl (by decide))
    · exact not_true_of_false (head_beq_false '-' 'Q' rfl (by decide))
    · exact not_true_of_false (head_beq_false '-' 'Q' rfl (by decide))
  · unfold optLines at h4
    simp only [List.mem_cons, List.mem_singleton, List.not_mem_nil,
      or_false] at h4
    rcases h4 with rfl | rfl | rfl | rfl | rfl | rfl
    · intro hc
      unfold feeLine at hc
      split at hc
      · exact absurd hc
          (not_true_of_false (head_beq_false '-' 'Q' rfl (by decide)))
      · exact Bool.noConfusion hc
    · intro hc
      unfold prepayLine at hc
      split at hc
      · exact absurd hc
          (not_true_of_false (head_beq_false '-' 'Q' rfl (by decide)))
      · exact Bool.noConfusion hc
    · intro hc
      unfold disbursalLine at hc
      split at hc
      · exact absurd hc
          (not_true_of_false (head_beq_false '-' 'Q' rfl (by decide)))
      · exact Bool.noConfusion hc
    · intro hc
      unfold docsLine at hc
      split at hc
      · exact absurd hc
          (not_true_of_false (head_beq_false '-' 'Q' rfl (by decide)))
      · exact Bool.noConfusion hc
    · intro hc
      unfold summaryLine at hc
      split at hc
      · exact absurd hc
          (not_true_of_false (head_beq_false '-' 'Q' rfl (by decide)))
      · exact Bool.noConfusion hc
    · exact not_true_of_false rfl
  · simp only [List.mem_cons, List.mem_singleton, List.not_mem_nil,
      or_false] at h5
    rcases h5 with rfl | rfl
    · exact not_true_of_false rfl
    · exact not_true_of_false (head_beq_false 'F' 'Q' rfl (by decide))

theorem filterQ_post (q : List Char) (h : List Turn) :
    ([[]] ++ histRegion h ++ [[], str "USER QUESTION: " ++ q, [],
      closingDirective]).filter
        (fun ln : List Char => ln.head? == some 'Q') = [] := by
  rw [List.filter_eq_nil_iff]
  intro a ha
  simp only [List.mem_append] at ha
  rcases ha with (h0 | h1) | h2
  · rcases List.mem_singleton.mp h0 with rfl
    exact not_true_of_false rfl
  · cases h with
    | nil =>
      have h1' : a ∈ [([] : List Char)] := h1
      rcases List.mem_singleton.mp h1' with rfl
      exact not_true_of_false rfl
    | cons t ts =>
      have h1' : a ∈ [[], str "PREVIOUS CONVERSATION:"] ++
          (t :: ts).map turnLine ++ [[]] := h1
      rcases List.mem_append.mp h1' with h3 | h4
      · rcases List.mem_append.mp h3 with h5 | h6
        · rcases List.mem_cons.mp h5 with rfl | h7
          · exact not_true_of_false rfl
          · rcases List.mem_singleton.mp h7 with rfl
            exact not_true_of_false (head_beq_false 'P' 'Q' rfl (by decide))
        · rcases List.mem_map.mp h6 with ⟨tn, -, rfl⟩
          rcases turnLine_head tn with ht | ht
          · exact not_true_of_false (head_beq_false 'U' 'Q' ht (by decide))
          · exact not_true_of_false (head_beq_false 'A' 'Q' ht (by decide))
      · rcases List.mem_singleton.mp h4 with rfl
        exact not_true_of_false rfl
  · simp only [List.mem_cons, List.mem_singleton, List.not_mem_nil,
      or_false] at h2
    rcases h2 with rfl | rfl | rfl | rfl
    · exact not_true_of_false rfl
    · exact not_true_of_false (head_beq_false 'U' 'Q' rfl (by decide))
    · exact not_true_of_false rfl
    · exact not_true_of_false (head_beq_false 'P' 'Q' rfl (by decide))

theorem ne_of_heads (c d : Char) {x y : List Char} (hx : x.head? = some c)
    (hy : y.head? = some d) (hcd : c ≠ d) : x ≠ y := by
  intro hxy
  rw [hxy, hy] at hx
  exact hcd (Option.some.inj hx).symm

theorem freq_not_mem (p : Product) (q : List Char) (h : List Turn)
    (hfq : faqPresent p.faq = false) :
    str "FREQUENTLY ASKED QUESTIONS:" ∉ promptLines p q h := by
  intro hl
  unfold promptLines at hl
  simp only [List.mem_append] at hl
  rcases hl with ((((((h0 | h1) | h2) | h3) | h4) | h5) | h6)
  · rcases List.mem_cons.mp h0 with heq | h0'
    · exact absurd heq (ne_of_heads 'F' 'Y' rfl rfl (by decide))
    · rcases List.mem_singleton.mp h0' with heq
      exact absurd heq (by decide)
  · unfold rulesLines rule2Line at h1
    simp only [List.mem_cons, List.mem_singleton, List.not_mem_nil,
      or_false] at h1
    rcases h1 with heq | heq | heq | heq | heq | heq
    · exact absurd heq (by decide)
    · exact absurd heq (by decide)
    · exact absurd heq (ne_of_heads 'F' '2' rfl rfl (by decide))
    · exact absurd heq (by decide)
    · exact absurd heq (by decide)
    · exact absurd heq (by decide)
  · rcases List.mem_singleton.mp h2 with heq
    exact absurd heq (by decide)
  · unfold pcLines at h3
    rcases List.mem_append.mp h3 with h7 | h8
    · unfold pcFixedLines at h7
      simp only [List.mem_cons, List.mem_singleton, List.not_mem_nil,
        or_false] at h7
      rcases h7 with heq | heq | heq | heq | heq | heq | heq | heq
      · exact absurd heq (by decide)
      · exact absurd heq (ne_of_heads 'F' '-' rfl rfl (by decide))
      · exact absurd heq (ne_of_heads 'F' '-' rfl rfl (by decide))
      · exact absurd heq (ne_of_heads 'F' '-' rfl rfl (by decide))
      · exact absurd heq (ne_of_heads 'F' '-' rfl rfl (by decide))
      · exact absurd heq (ne_of_heads 'F' '-' rfl rfl (by decide))
      · exact absurd heq (ne_of_heads 'F' '-' rfl rfl (by decide))
      · exact absurd heq (ne_of_heads 'F' '-' rfl rfl (by decide))
    · have h9 := mem_dropTrailEmpty h8
      rcases List.mem_append.mp h9 with h10 | h11
      · unfold optLines at h10
        simp only [List.mem_cons, List.mem_singleton, List.not_mem_nil,
          or_false] at h10
        rcases h10 with heq | heq | heq | heq | heq | heq
        · unfold feeLine at heq
          split at heq
          · exact absurd heq (ne_of_heads 'F' '-' rfl rfl (by decide))
          · exact absurd heq (by decide)
        · unfold prepayLine at heq
          split at heq
          · exact absurd heq (ne_of_heads 'F' '-' rfl rfl (by decide))
          · exact absurd heq (by decide)
        · unfold disbursalLine at heq
          split at heq
          · exact absurd heq (ne_of_heads 'F' '-' rfl rfl (by decide))
          · exact absurd heq (by decide)
        · unfold docsLine at heq
          split at heq
          · exact absurd heq (ne_of_heads 'F' '-' rfl rfl (by decide))
          · exact absurd heq (by decide)
        · unfold summaryLine at heq
          split at heq
          · exact absurd heq (ne_of_heads 'F' '-' rfl rfl (by decide))
          · exact absurd heq (by decide)
        · exact absurd heq (by decide)
      · unfold faqRegion at h11
        split at h11
        · rename_i htr
          rw [hfq] at htr
          exact Bool.noConfusion htr
        · simp only [List.mem_cons, List.mem_singleton, List.not_mem_nil,
            or_false] at h11
          rcases h11 with heq | heq
          · exact absurd heq (by decide)
          · exact absurd heq (by decide)
  · rcases List.mem_singleton.mp h4 with heq
    exact absurd heq (by decide)
  · cases h with
    | nil =>
      have h5' : str "FREQUENTLY ASKED QUESTIONS:" ∈ [([] : List Char)] := h5
      rcases List.mem_singleton.mp h5' with heq
      exact absurd heq (by decide)
    | cons t ts =>
      have h5' : str "FREQUENTLY ASKED QUESTIONS:" ∈
          [[], str "PREVIOUS CONVERSATION:"] ++ (t :: ts).map turnLine ++
            [[]] := h5
      rcases List.mem_append.mp h5' with h7 | h8
      · rcases List.mem_append.mp h7 with h9 | h10
        · rcases List.mem_cons.mp h9 with heq | h9'
          · exact absurd heq (by decide)
          · rcases List.mem_singleton.mp h9' with heq
            exact absurd heq (by decide)
        · rcases List.mem_map.mp h10 with ⟨tn, -, heq⟩
          rcases turnLine_head tn with ht | ht
          · exact absurd heq.symm (ne_of_heads 'F' 'U' rfl ht (by decide))
          · exact absurd heq.symm (ne_of_heads 'F' 'A' rfl ht (by decide))
      · rcases List.mem_singleton.mp h8 with heq
        exact absurd heq (by decide)
  · simp only [List.mem_cons, List.mem_singleton, List.not_mem_nil,
      or_false] at h6
    rcases h6 with heq | heq | heq | heq
    · exact absurd heq (by decide)
    · exact absurd heq (ne_of_heads 'F' 'U' rfl rfl (by decide))
    · exact absurd heq (by decide)
    · exact absurd heq (by decide)

theorem hwf_sample : WellFormedProduct sampleProduct := by
  refine ⟨by decide, by decide, noTrail_of_getLast rfl (by decide),
    by decide, by decide, noTrail_of_getLast rfl (by decide),
    ?_, ?_, ?_, ?_⟩
  · intro s hs
    rw [← Option.some.inj hs]
    exact ⟨by decide, noTrail_of_getLast rfl (by decide)⟩
  · intro s hs
    rw [← Option.some.inj hs]
    exact ⟨by decide, noTrail_of_getLast rfl (by decide)⟩
  · intro s hs
    rw [← Option.some.inj hs]
    exact ⟨by decide, noTrail_of_getLast rfl (by decide)⟩
  · intro l hl
    rw [← Option.some.inj hl]
    intro f hf
    rcases List.mem_cons.mp hf with rfl | hf2
    · exact ⟨by decide, by decide, noTrail_of_getLast rfl (by decide),
        by decide, by decide, noTrail_of_getLast rfl (by decide)⟩
    · rcases List.mem_singleton.mp hf2 with rfl
      exact ⟨by decide, by decide, noTrail_of_getLast rfl (by decide),
        by decide, by decide, noTrail_of_getLast rfl (by decide)⟩

/-- C5: a product with an absent or empty FAQ list yields a prompt with no
FAQ-section header line; a product with FAQ entries `l` (nonempty) yields
a prompt whose `Q`-initial lines are exactly the questions of `l`,
numbered `1..N` in stored order, and whose lines contain the contiguous
numbered Q/A block right after the header line. -/
theorem faq_section_spec (p : Product) (q : List Char) (h : List Turn)
    (hwf : WellFormedProduct p) (hq : NLFree q)
    (hh : ∀ t ∈ h, NLFree t.content) :
    (faqPresent p.faq = false →
      str "FREQUENTLY ASKED QUESTIONS:" ∉
        splitNL (buildGroundedPrompt p q h)) ∧
    (∀ l, p.faq = some l → l ≠ [] →
      ((splitNL (buildGroundedPrompt p q h)).filter
          (fun ln : List Char => ln.head? == some 'Q') =
        (List.enumFrom 0 l).map
          (fun x => str "Q" ++ natStr (x.1 + 1) ++ str ": " ++ x.2.q)) ∧
      ∃ pre post, splitNL (buildGroundedPrompt p q h) =
        pre ++ [str "FREQUENTLY ASKED QUESTIONS:"] ++
          ((List.enumFrom 0 l).map faqTriple).flatten ++ post) := by
  rw [splitNL_prompt p q h hwf hq hh]
  constructor
  · exact fun hfq => freq_not_mem p q h hfq
  · intro l hfaq hl
    constructor
    · rw [promptLines_faq_decomp p q h l hfaq hl]
      rw [List.filter_append, List.filter_append, filterQ_pre,
        filter_triples 0 l, filterQ_post]
      simp
    · refine ⟨[introLine p, []] ++ rulesLines p ++ [[]] ++ pcFixedLines p ++
        optLines p ++ [[]],
        [[]] ++ histRegion h ++ [[], str "USER QUESTION: " ++ q, [],
          closingDirective], ?_⟩
      rw [promptLines_faq_decomp p q h l hfaq hl]
      simp [List.append_assoc]

/-- Witness for the FAQ-section theorem: on the sample product (two FAQ
entries) the prompt's `Q`-lines are exactly `Q1`/`Q2` with the stored
questions. -/
theorem faq_section_spec_witness :
    (splitNL (buildGroundedPrompt sampleProduct (str "hello") [])).filter
        (fun ln : List Char => ln.head? == some 'Q') =
      [str "Q1: Can I prepay?", str "Q2: Max amount?"] := by
  have hres := ((faq_section_spec sampleProduct (str "hello") [] hwf_sample
      (by decide) (by intro t ht; exact absurd ht (List.not_mem_nil t))).2
      [⟨str "Can I prepay?", str "Yes, without charges."⟩,
       ⟨str "Max amount?", str "Ten lakh."⟩] rfl (by simp)).1
  rw [hres]
  rfl

theorem startsWithL_append_self : ∀ (lab x : List Char),
    startsWithL lab (lab ++ x) = true
  | [], _ => rfl
  | a :: lab', x => by
    show (a == a && startsWithL lab' (lab' ++ x)) = true
    rw [startsWithL_append_self lab' x]
    simp

theorem startsWithL_conflict : ∀ (lab lit : List Char),
    (List.zip lab lit).any (fun pr => pr.1 != pr.2) = true →
    ∀ x, startsWithL lab (lit ++ x) = false
  | [], lit, hc, x => by simp [List.zip] at hc
  | _ :: _, [], hc, _ => by simp at hc
  | a :: lab', b :: lit', hc, x => by
    show (a == b && startsWithL lab' (lit' ++ x)) = false
    simp only [List.zip_cons_cons, List.any_cons, Bool.or_eq_true] at hc
    rcases hc with hab | hrest
    · rw [show (a == b) = false from by simpa using hab]
      rfl
    · rw [startsWithL_conflict lab' lit' hrest x]
      simp

theorem countP_dTE {P : List Char → Bool} (hnil : P [] = false)
    (L : List (List Char)) :
    (dropTrailEmpty L).countP P = L.countP P := by
  obtain ⟨w, hw, hwall⟩ := dropTrailEmpty_decomp L
  conv_rhs => rw [hw]
  rw [List.countP_append]
  have hw0 : w.countP P = 0 := List.countP_eq_zero.mpr
    (fun a ha => by rw [hwall a ha]; exact not_true_of_false hnil)
  rw [hw0]
  omega

theorem rules_startsWith_false (p : Product) (lab : List Char)
    (h0 : startsWithL lab (str "CRITICAL RULES:") = false)
    (h1 : startsWithL lab
      (str "1. Answer ONLY using the product information provided above") =
      false)
    (h2 : (List.zip lab (str "2. When referencing specific data, cite the field name (e.g., \"The APR is ")).any
      (fun pr => pr.1 != pr.2) = true)
    (h3 : startsWithL lab
      (str "3. If the user asks about information NOT in the product data, respond with: \"I don't have that specific information in our product database. However, I can help you with [list available topics] or connect you with our support team for detailed assistance.\"") =
      false)
    (h4 : startsWithL lab (str "4. Be conversational but accurate") = false)
    (h5 : startsWithL lab
      (str "5. If you're unsure, acknowledge it rather than guessing") =
      false) :
    ∀ ln ∈ rulesLines p, startsWithL lab ln = false := by
  intro ln hln
  unfold rulesLines rule2Line at hln
  simp only [List.mem_cons, List.mem_singleton, List.not_mem_nil,
    or_false] at hln
  rcases hln with rfl | rfl | rfl | rfl | rfl | rfl
  · exact h0
  · exact h1
  · exact startsWithL_conflict _ _ h2 _
  · exact h3
  · exact h4
  · exact h5

theorem pcFixed_startsWith_false (p : Product) (lab : List Char)
    (h0 : startsWithL lab (str "PRODUCT INFORMATION:") = false)
    (h1 : (List.zip lab (str "- Product Name: ")).any
      (fun pr => pr.1 != pr.2) = true)
    (h2 : (List.zip lab (str "- Bank: ")).any
      (fun pr => pr.1 != pr.2) = true)
    (h3 : (List.zip lab (str "- Loan Type: ")).any
      (fun pr => pr.1 != pr.2) = true)
    (h4 : (List.zip lab (str "- Interest Rate (APR): ")).any
      (fun pr => pr.1 != pr.2) = true)
    (h5 : (List.zip lab (str "- Minimum Income Required: ")).any
      (fun pr => pr.1 != pr.2) = true)
    (h6 : (List.zip lab (str "- Minimum Credit Score: ")).any
      (fun pr => pr.1 != pr.2) = true)
    (h7 : (List.zip lab (str "- Tenure Range: ")).any
      (fun pr => pr.1 != pr.2) = true) :
    ∀ ln ∈ pcFixedLines p, startsWithL lab ln = false := by
  intro ln hln
  unfold pcFixedLines at hln
  simp only [List.mem_cons, List.mem_singleton, List.not_mem_nil,
    or_false] at hln
  rcases hln with rfl | rfl | rfl | rfl | rfl | rfl | rfl | rfl
  · exact h0
  · exact startsWithL_conflict _ _ h1 _
  · exact startsWithL_conflict _ _ h2 _
  · exact startsWithL_conflict _ _ h3 _
  · exact startsWithL_conflict _ _ h4 _
  · exact startsWithL_conflict _ _ h5 _
  · exact startsWithL_conflict _ _ h6 _
  · exact startsWithL_conflict _ _ h7 _

theorem faqRegion_startsWith_false (faq : Option (List ProductFaq))
    (lab : List Char)
    (hnil : startsWithL lab [] = false)
    (hfr : startsWithL lab (str "FREQUENTLY ASKED QUESTIONS:") = false)
    (hQ : (List.zip lab (str "Q")).any (fun pr => pr.1 != pr.2) = true)
    (hA : (List.zip lab (str "A")).any (fun pr => pr.1 != pr.2) = true) :
    ∀ ln ∈ faqRegion faq, startsWithL lab ln = false := by
  intro ln hln
  unfold faqRegion at hln
  split at hln
  · rcases List.mem_append.mp hln with hl1 | hl2
    · rcases List.mem_append.mp hl1 with hl3 | hl4
      · rcases List.mem_cons.mp hl3 with rfl | hl5
        · exact hnil
        · rcases List.mem_singleton.mp hl5 with rfl
          exact hfr
      · rcases List.mem_flatten.mp hl4 with ⟨tr, htr2, hltr⟩
        rcases List.mem_map.mp htr2 with ⟨x, -, rfl⟩
        simp only [faqTriple, List.mem_cons, List.mem_singleton,
          List.not_mem_nil, or_false] at hltr
        rcases hltr with rfl | rfl | rfl
        · exact hnil
        · rw [List.append_assoc, List.append_assoc]
          exact startsWithL_conflict _ _ hQ _
        · rw [List.append_assoc, List.append_assoc]
          exact startsWithL_conflict _ _ hA _
    · rcases List.mem_cons.mp hl2 with rfl | hl5
      · exact hnil
      · rcases List.mem_singleton.mp hl5 with rfl
        exact hnil
  · rcases List.mem_cons.mp hln with rfl | hl5
    · exact hnil
    · rcases List.mem_singleton.mp hl5 with rfl
      exact hnil

theorem hist_startsWith_false (h : List Turn) (lab : List Char)
    (hnil : startsWithL lab [] = false)
    (hprev : startsWithL lab (str "PREVIOUS CONVERSATION:") = false)
    (hU : (List.zip lab (str "USER")).any (fun pr => pr.1 != pr.2) = true)
    (hA : (List.zip lab (str "ASSISTANT")).any
      (fun pr => pr.1 != pr.2) = true) :
    ∀ ln ∈ histRegion h, startsWithL lab ln = false := by
  intro ln hln
  cases h with
  | nil =>
    have hln' : ln ∈ [([] : List Char)] := hln
    rcases List.mem_singleton.mp hln' with rfl
    exact hnil
  | cons t ts =>
    have hln' : ln ∈ [[], str "PREVIOUS CONVERSATION:"] ++
        (t :: ts).map turnLine ++ [[]] := hln
    rcases List.mem_append.mp hln' with h1 | h2
    · rcases List.mem_append.mp h1 with h3 | h4
      · rcases List.mem_cons.mp h3 with rfl | h5
        · exact hnil
        · rcases List.mem_singleton.mp h5 with rfl
          exact hprev
      · rcases List.mem_map.mp h4 with ⟨tn, -, rfl⟩
        unfold turnLine
        cases hr : tn.role with
        | user =>
          rw [show Role.upper .user ++ str ": " ++ tn.content =
            str "USER" ++ (str ": " ++ tn.content) from rfl]
          exact startsWithL_conflict _ _ hU _
        | assistant =>
          rw [show Role.upper .assistant ++ str ": " ++ tn.content =
            str "ASSISTANT" ++ (str ": " ++ tn.content) from rfl]
          exact startsWithL_conflict _ _ hA _
    · rcases List.mem_singleton.mp h2 with rfl
      exact hnil

theorem countP_promptLines (p : Product) (q : List Char) (h : List Turn)
    (P : List Char → Bool) (hnil : P [] = false)
    (hintro : P (introLine p) = false)
    (hrules : ∀ ln ∈ rulesLines p, P ln = false)
    (hfixed : ∀ ln ∈ pcFixedLines p, P ln = false)
    (hfaq : ∀ ln ∈ faqRegion p.faq, P ln = false)
    (hhist : ∀ ln ∈ histRegion h, P ln = false)
    (huser : P (str "USER QUESTION: " ++ q) = false)
    (hclose : P closingDirective = false) :
    (promptLines p q h).countP P = (optLines p).countP P := by
  unfold promptLines pcLines
  simp only [List.countP_append]
  have hz : ∀ {L : List (List Char)}, (∀ ln ∈ L, P ln = false) →
      L.countP P = 0 :=
    fun hL => List.countP_eq_zero.mpr
      (fun a ha => not_true_of_false (hL a ha))
  rw [hz hrules, hz hfixed, hz hhist]
  rw [show ([introLine p, []] : List (List Char)).countP P = 0 from by
    simp [List.countP_cons, hintro, hnil]]
  rw [show ([[]] : List (List Char)).countP P = 0 from by
    simp [List.countP_cons, hnil]]
  rw [show ([[], str "USER QUESTION: " ++ q, [],
      closingDirective] : List (List Char)).countP P = 0 from by
    simp [List.countP_cons, hnil, huser, hclose]]
  rw [countP_dTE hnil, List.countP_append, hz hfaq]
  omega

theorem countP_optLines_fee (p : Product) :
    (optLines p).countP (startsWithL (str "- Processing Fee: ")) =
      if truthyNum p.processing_fee_pct then 1 else 0 := by
  have hfee : startsWithL (str "- Processing Fee: ") (feeLine p) =
      truthyNum p.processing_fee_pct := by
    unfold feeLine
    split
    · rename_i ht
      rw [ht, List.append_assoc]
      exact startsWithL_append_self _ _
    · rename_i ht
      rw [Bool.eq_false_iff.mpr ht]
      rfl
  have h2 : startsWithL (str "- Processing Fee: ") (prepayLine p) = false := by
    unfold prepayLine
    split
    · exact startsWithL_conflict _ _ (by decide) _
    · rfl
  have h3 : startsWithL (str "- Processing Fee: ") (disbursalLine p) =
      false := by
    unfold disbursalLine
    split
    · exact startsWithL_conflict _ _ (by decide) _
    · rfl
  have h4 : startsWithL (str "- Processing Fee: ") (docsLine p) = false := by
    unfold docsLine
    split
    · exact startsWithL_conflict _ _ (by decide) _
    · rfl
  have h5 : startsWithL (str "- Processing Fee: ") (summaryLine p) =
      false := by
    unfold summaryLine
    split
    · exact startsWithL_conflict _ _ (by decide) _
    · rfl
  show List.countP _ [feeLine p, prepayLine p, disbursalLine p, docsLine p,
    summaryLine p, []] = _
  simp only [List.countP_cons, List.countP_nil, hfee, h2, h3, h4, h5,
    (show startsWithL (str "- Processing Fee: ") ([] : List Char) = false
      from rfl)]
  cases htr : truthyNum p.processing_fee_pct <;> simp [htr]

theorem countP_optLines_prepay (p : Product) :
    (optLines p).countP (startsWithL (str "- Prepayment Penalty: ")) =
      if p.prepayment_allowed.isSome then 1 else 0 := by
  have hpre : startsWithL (str "- Prepayment Penalty: ") (prepayLine p) =
      p.prepayment_allowed.isSome := by
    unfold prepayLine
    split
    · rename_i ht
      rw [ht]
      exact startsWithL_append_self _ _
    · rename_i ht
      rw [Bool.eq_false_iff.mpr ht]
      rfl
  have h1 : startsWithL (str "- Prepayment Penalty: ") (feeLine p) =
      false := by
    unfold feeLine
    split
    · rw [List.append_assoc]
      exact startsWithL_conflict _ _ (by decide) _
    · rfl
  have h3 : startsWithL (str "- Prepayment Penalty: ") (disbursalLine p) =
      false := by
    unfold disbursalLine
    split
    · exact startsWithL_conflict _ _ (by decide) _
    · rfl
  have h4 : startsWithL (str "- Prepayment Penalty: ") (docsLine p) =
      false := by
    unfold docsLine
    split
    · exact startsWithL_conflict _ _ (by decide) _
    · rfl
  have h5 : startsWithL (str "- Prepayment Penalty: ") (summaryLine p) =
      false := by
    unfold summaryLine
    split
    · exact startsWithL_conflict _ _ (by decide) _
    · rfl
  show List.countP _ [feeLine p, prepayLine p, disbursalLine p, docsLine p,
    summaryLine p, []] = _
  simp only [List.countP_cons, List.countP_nil, hpre, h1, h3, h4, h5,
    (show startsWithL (str "- Prepayment Penalty: ") ([] : List Char) = false
      from rfl)]
  cases htr : p.prepayment_allowed.isSome <;> simp [htr]

theorem countP_optLines_disb (p : Product) :
    (optLines p).countP (startsWithL (str "- Disbursal Speed: ")) =
      if truthyStr p.disbursal_speed then 1 else 0 := by
  have hdis : startsWithL (str "- Disbursal Speed: ") (disbursalLine p) =
      truthyStr p.disbursal_speed := by
    unfold disbursalLine
    split
    · rename_i ht
      rw [ht]
      exact startsWithL_append_self _ _
    · rename_i ht
      rw [Bool.eq_false_iff.mpr ht]
      rfl
  have h1 : startsWithL (str "- Disbursal Speed: ") (feeLine p) = false := by
    unfold feeLine
    split
    · rw [List.append_assoc]
      exact startsWithL_conflict _ _ (by decide) _
    · rfl
  have h2 : startsWithL (str "- Disbursal Speed: ") (prepayLine p) =
      false := by
    unfold prepayLine
    split
    · exact startsWithL_conflict _ _ (by decide) _
    · rfl
  have h4 : startsWithL (str "- Disbursal Speed: ") (docsLine p) = false := by
    unfold docsLine
    split
    · exact startsWithL_conflict _ _ (by decide) _
    · rfl
  have h5 : startsWithL (str "- Disbursal Speed: ") (summaryLine p) =
      false := by
    unfold summaryLine
    split
    · exact startsWithL_conflict _ _ (by decide) _
    · rfl
  show List.countP _ [feeLine p, prepayLine p, disbursalLine p, docsLine p,
    summaryLine p, []] = _
  simp only [List.countP_cons, List.countP_nil, hdis, h1, h2, h4, h5,
    (show startsWithL (str "- Disbursal Speed: ") ([] : List Char) = false
      from rfl)]
  cases htr : truthyStr p.disbursal_speed <;> simp [htr]

theorem countP_optLines_docs (p : Product) :
    (optLines p).countP (startsWithL (str "- Documentation Level: ")) =
      if truthyStr p.docs_level then 1 else 0 := by
  have hdoc : startsWithL (str "- Documentation Level: ") (docsLine p) =
      truthyStr p.docs_level := by
    unfold docsLine
    split
    · rename_i ht
      rw [ht]
      exact startsWithL_append_self _ _
    · rename_i ht
      rw [Bool.eq_false_iff.mpr ht]
      rfl
  have h1 : startsWithL (str "- Documentation Level: ") (feeLine p) =
      false := by
    unfold feeLine
    split
    · rw [List.append_assoc]
      exact startsWithL_conflict _ _ (by decide) _
    · rfl
  have h2 : startsWithL (str "- Documentation Level: ") (prepayLine p) =
      false := by
    unfold prepayLine
    split
    · exact startsWithL_conflict _ _ (by decide) _
    · rfl
  have h3 : startsWithL (str "- Documentation Level: ") (disbursalLine p) =
      false := by
    unfold disbursalLine
    split
    · exact startsWithL_conflict _ _ (by decide) _
    · rfl
  have h5 : startsWithL (str "- Documentation Level: ") (summaryLine p) =
      false := by
    unfold summaryLine
    split
    · exact startsWithL_conflict _ _ (by decide) _
    · rfl
  show List.countP _ [feeLine p, prepayLine p, disbursalLine p, docsLine p,
    summaryLine p, []] = _
  simp only [List.countP_cons, List.countP_nil, hdoc, h1, h2, h3, h5,
    (show startsWithL (str "- Documentation Level: ") ([] : List Char) = false
      from rfl)]
  cases htr : truthyStr p.docs_level <;> simp [htr]

theorem countP_optLines_summary (p : Product) :
    (optLines p).countP (startsWithL (str "- Summary: ")) =
      if truthyStr p.summary then 1 else 0 := by
  have hsum : startsWithL (str "- Summary: ") (summaryLine p) =
      truthyStr p.summary := by
    unfold summaryLine
    split
    · rename_i ht
      rw [ht]
      exact startsWithL_append_self _ _
    · rename_i ht
      rw [Bool.eq_false_iff.mpr ht]
      rfl
  have h1 : startsWithL (str "- Summary: ") (feeLine p) = false := by
    unfold feeLine
    split
    · rw [List.append_assoc]
      exact startsWithL_conflict _ _ (by decide) _
    · rfl
  have h2 : startsWithL (str "- Summary: ") (prepayLine p) = false := by
    unfold prepayLine
    split
    · exact startsWithL_conflict _ _ (by decide) _
    · rfl
  have h3 : startsWithL (str "- Summary: ") (disbursalLine p) = false := by
    unfold disbursalLine
    split
    · exact startsWithL_conflict _ _ (by decide) _
    · rfl
  have h4 : startsWithL (str "- Summary: ") (docsLine p) = false := by
    unfold docsLine
    split
    · exact startsWithL_conflict _ _ (by decide) _
    · rfl
  show List.countP _ [feeLine p, prepayLine p, disbursalLine p, docsLine p,
    summaryLine p, []] = _
  simp only [List.countP_cons, List.countP_nil, hsum, h1, h2, h3, h4,
    (show startsWithL (str "- Summary: ") ([] : List Char) = false
      from rfl)]
  cases htr : truthyStr p.summary <;> simp [htr]

/-- A product whose processing fee is present but zero — JS-falsy, so the
template's `&&` guard drops the Processing Fee line even though the field
is present. -/
def zeroFeeProduct : Product where
  name := str "Zero Fee Loan"
  bank := str "B Bank"
  type := .personal
  rate_apr := ⟨10, 0⟩
  min_income := .int 1000
  min_credit_score := 600
  tenure_min_months := 6
  tenure_max_months := 12
  processing_fee_pct := some ⟨0, 0⟩

/-- C2 (amended): the prompt contains its parts in source order — intro
sentence, blank, the five CRITICAL RULES, blank, the product listing
(fixed fields, present optional fields, FAQ block), blank, the transcript
region, blank, the user question, blank, the closing directive.  The
rules precede the product listing and the transcript rather than
following them. -/
theorem prompt_section_order (p : Product) (q : List Char) (h : List Turn)
    (hwf : WellFormedProduct p) (hq : NLFree q)
    (hh : ∀ t ∈ h, NLFree t.content) :
    splitNL (buildGroundedPrompt p q h) =
      [introLine p, []] ++ rulesLines p ++ [[]] ++ pcLines p ++ [[]] ++
        histRegion h ++ [[], str "USER QUESTION: " ++ q, [],
          closingDirective] :=
  splitNL_prompt p q h hwf hq hh

/-- Witness: the section-order decomposition at the sample product, a
concrete question and no history. -/
theorem prompt_section_order_witness :
    splitNL (buildGroundedPrompt sampleProduct (str "hi") []) =
      [introLine sampleProduct, []] ++ rulesLines sampleProduct ++ [[]] ++
        pcLines sampleProduct ++ [[]] ++ histRegion [] ++
        [[], str "USER QUESTION: " ++ str "hi", [], closingDirective] :=
  prompt_section_order sampleProduct (str "hi") [] hwf_sample (by decide)
    (by intro t ht; exact absurd ht (List.not_mem_nil t))

set_option maxRecDepth 8000 in
/-- C2 counterexample: in a concrete fully-populated prompt with history,
each of the two section markers occurs exactly once, and the CRITICAL
RULES marker occurs at index 136, strictly before the product listing
marker at index 676 — the claimed order (listing, FAQ, transcript, then
rules) puts the rules after the listing, which is false. -/
theorem prompt_section_order_counterexample :
    countSub (str "CRITICAL RULES:")
        (buildGroundedPrompt sampleProduct (str "what is the rate?")
          [⟨.user, str "hi"⟩, ⟨.assistant, str "hello"⟩]) = 1 ∧
    countSub (str "PRODUCT INFORMATION:")
        (buildGroundedPrompt sampleProduct (str "what is the rate?")
          [⟨.user, str "hi"⟩, ⟨.assistant, str "hello"⟩]) = 1 ∧
    firstIdxSub (str "CRITICAL RULES:")
        (buildGroundedPrompt sampleProduct (str "what is the rate?")
          [⟨.user, str "hi"⟩, ⟨.assistant, str "hello"⟩]) = some 136 ∧
    firstIdxSub (str "PRODUCT INFORMATION:")
        (buildGroundedPrompt sampleProduct (str "what is the rate?")
          [⟨.user, str "hi"⟩, ⟨.assistant, str "hello"⟩]) = some 676 ∧
    136 < 676 := by
  refine ⟨by decide, by decide, by decide, by decide, by decide⟩

theorem intro_startsWith_false (p : Product) (lab : List Char)
    (hc : (List.zip lab (str "You are a helpful loan advisor assistant. You are helping a customer understand the \"")).any
      (fun pr => pr.1 != pr.2) = true) :
    startsWithL lab (introLine p) = false := by
  unfold introLine
  simp only [List.append_assoc]
  exact startsWithL_conflict _ _ hc _

/-- C3 (amended): each optional field yields exactly one label-prefixed
line when its value is truthy in the JavaScript sense and none otherwise:
the processing-fee line requires a present NONZERO fee, the
disbursal/documentation/summary lines require a present nonempty string,
and the prepayment line requires only that the flag is defined. -/
theorem optional_field_lines (p : Product) (q : List Char) (h : List Turn)
    (hwf : WellFormedProduct p) (hq : NLFree q)
    (hh : ∀ t ∈ h, NLFree t.content) :
    ((splitNL (buildGroundedPrompt p q h)).countP
        (startsWithL (str "- Processing Fee: ")) =
      if truthyNum p.processing_fee_pct then 1 else 0) ∧
    ((splitNL (buildGroundedPrompt p q h)).countP
        (startsWithL (str "- Prepayment Penalty: ")) =
      if p.prepayment_allowed.isSome then 1 else 0) ∧
    ((splitNL (buildGroundedPrompt p q h)).countP
        (startsWithL (str "- Disbursal Speed: ")) =
      if truthyStr p.disbursal_speed then 1 else 0) ∧
    ((splitNL (buildGroundedPrompt p q h)).countP
        (startsWithL (str "- Documentation Level: ")) =
      if truthyStr p.docs_level then 1 else 0) ∧
    ((splitNL (buildGroundedPrompt p q h)).countP
        (startsWithL (str "- Summary: ")) =
      if truthyStr p.summary then 1 else 0) := by
  rw [splitNL_prompt p q h hwf hq hh]
  refine ⟨?_, ?_, ?_, ?_, ?_⟩
  · rw [countP_promptLines p q h (startsWithL (str "- Processing Fee: ")) rfl
      (intro_startsWith_false p _ (by decide))
      (rules_startsWith_false p _ (by decide) (by decide) (by decide)
        (by decide) (by decide) (by decide))
      (pcFixed_startsWith_false p _ (by decide) (by decide) (by decide)
        (by decide) (by decide) (by decide) (by decide) (by decide))
      (faqRegion_startsWith_false p.faq _ rfl (by decide) (by decide)
        (by decide))
      (hist_startsWith_false h _ rfl (by decide) (by decide) (by decide))
      (startsWithL_conflict _ _ (by decide) q) (by decide),
      countP_optLines_fee]
  · rw [countP_promptLines p q h
      (startsWithL (str "- Prepayment Penalty: ")) rfl
      (intro_startsWith_false p _ (by decide))
      (rules_startsWith_false p _ (by decide) (by decide) (by decide)
        (by decide) (by decide) (by decide))
      (pcFixed_startsWith_false p _ (by decide) (by decide) (by decide)
        (by decide) (by decide) (by decide) (by decide) (by decide))
      (faqRegion_startsWith_false p.faq _ rfl (by decide) (by decide)
        (by decide))
      (hist_startsWith_false h _ rfl (by decide) (by decide) (by decide))
      (startsWithL_conflict _ _ (by decide) q) (by decide),
      countP_optLines_prepay]
  · rw [countP_promptLines p q h
      (startsWithL (str "- Disbursal Speed: ")) rfl
      (intro_startsWith_false p _ (by decide))
      (rules_startsWith_false p _ (by decide) (by decide) (by decide)
        (by decide) (by decide) (by decide))
      (pcFixed_startsWith_false p _ (by decide) (by decide) (by decide)
        (by decide) (by decide) (by decide) (by decide) (by decide))
      (faqRegion_startsWith_false p.faq _ rfl (by decide) (by decide)
        (by decide))
      (hist_startsWith_false h _ rfl (by decide) (by decide) (by decide))
      (startsWithL_conflict _ _ (by decide) q) (by decide),
      countP_optLines_disb]
  · rw [countP_promptLines p q h
      (startsWithL (str "- Documentation Level: ")) rfl
      (intro_startsWith_false p _ (by decide))
      (rules_startsWith_false p _ (by decide) (by decide) (by decide)
        (by decide) (by decide) (by decide))
      (pcFixed_startsWith_false p _ (by decide) (by decide) (by decide)
        (by decide) (by decide) (by decide) (by decide) (by decide))
      (faqRegion_startsWith_false p.faq _ rfl (by decide) (by decide)
        (by decide))
      (hist_startsWith_false h _ rfl (by decide) (by decide) (by decide))
      (startsWithL_conflict _ _ (by decide) q) (by decide),
      countP_optLines_docs]
  · rw [countP_promptLines p q h (startsWithL (str "- Summary: ")) rfl
      (intro_startsWith_false p _ (by decide))
      (rules_startsWith_false p _ (by decide) (by decide) (by decide)
        (by decide) (by decide) (by decide))
      (pcFixed_startsWith_false p _ (by decide) (by decide) (by decide)
        (by decide) (by decide) (by decide) (by decide) (by decide))
      (faqRegion_startsWith_false p.faq _ rfl (by decide) (by decide)
        (by decide))
      (hist_startsWith_false h _ rfl (by decide) (by decide) (by decide))
      (startsWithL_conflict _ _ (by decide) q) (by decide),
      countP_optLines_summary]

/-- Witness: on the sample product (nonzero fee present) the prompt has
exactly one Processing Fee line. -/
theorem optional_field_lines_witness :
    (splitNL (buildGroundedPrompt sampleProduct (str "hi") [])).countP
      (startsWithL (str "- Processing Fee: ")) = 1 := by
  have hres := (optional_field_lines sampleProduct (str "hi") [] hwf_sample
    (by decide) (by intro t ht; exact absurd ht (List.not_mem_nil t))).1
  rw [hres]
  rfl

set_option maxRecDepth 8000 in
/-- C3 counterexample: `zeroFeeProduct` has its processing-fee field
present (0%), yet the rendered prompt contains no Processing Fee line —
presence of an optional field does not imply a labeled line. -/
theorem optional_field_lines_counterexample :
    zeroFeeProduct.processing_fee_pct ≠ none ∧
    (splitNL (buildGroundedPrompt zeroFeeProduct (str "fees?") [])).countP
      (startsWithL (str "- Processing Fee: ")) = 0 := by
  refine ⟨by decide, by decide⟩

end LoanPicks
